import Mathlib

/-!
receptor: identifiers, store selection and the subscription sync pipeline

A shallow embedding of `index/sha224.go`, `store/factory.go` and
`subscription/subscription.go`, with the pieces of the Go standard library
they call (`encoding/hex`, `crypto/sha256`, `net/url`).

Conventions

* a Go `byte` is a `Fin 256`; a Go `string` and a `[]byte` are lists of bytes
  (`len` is the list's length);
* a `[28]byte` array is a list of bytes of length 28;
* a Go `error` is a value of `GoError`, and a possibly-nil error an `Option GoError`;
* what `Sync` reads from outside (the network, the clock, the feed package) is a
  field of `subscription.Env`.
-/

namespace Receptor

/-! ## Bytes, strings, errors -/

/-- A Go `byte`. -/
abbrev Byte := Fin 256

/-- A Go `string` (and a `[]byte`): a sequence of bytes. -/
abbrev GoString := List Byte

/-- The conversion `byte(n)` of an unsigned integer: truncation to 8 bits. -/
def byte (n : Nat) : Byte := ⟨n % 256, Nat.mod_lt n (by decide)⟩

/-- A string literal of the source, as its UTF-8 bytes. -/
def lit (s : String) : GoString := s.toUTF8.data.toList.map (fun b => b.val)

/-- A `[28]byte` array (`sha256.Size224 = 28`). -/
abbrev Bytes28 := { l : List Byte // l.length = 28 }

/-- The zero value of a `[28]byte`. -/
def Bytes28.zero : Bytes28 := ⟨List.replicate 28 0, by simp⟩

/-- The built-in `copy(dst, src)`: the first `min(len(dst), len(src))` elements of `dst`
are overwritten with those of `src`; the result is the new contents of `dst`. -/
def goCopy (dst src : List Byte) : List Byte :=
  src.take dst.length ++ dst.drop src.length

/-- An argument of a `fmt.Errorf` call. -/
inductive Arg where
  | str (s : GoString)
  | int (n : Int)
  deriving DecidableEq, Repr

/-- The error values the modelled code builds or passes on. -/
inductive GoError where
  /-- `errors.New(text)` -/
  | errorsNew (text : String)
  /-- `fmt.Errorf(format, args...)` -/
  | fmtErrorf (format : String) (args : List Arg)
  /-- `hex.InvalidByteError(b)` -/
  | hexInvalidByteError (b : Byte)
  /-- `hex.ErrLength` -/
  | hexErrLength
  /-- `url.EscapeError(s)` -/
  | urlEscapeError (s : GoString)
  /-- `url.InvalidHostError(s)` -/
  | urlInvalidHostError (s : GoString)
  /-- `&url.Error{Op, URL, Err}` -/
  | urlError (op : String) (url : GoString) (err : GoError)
  deriving DecidableEq, Repr

deriving instance DecidableEq for Except

/-! ## encoding/hex -/

namespace hex

/-- `hextable` of encoding/hex. -/
def hextable : GoString := lit "0123456789abcdef"

/-- `hex.EncodeToString`: two lowercase digits per byte, `hextable[v>>4]` then
`hextable[v&0x0f]`. -/
def EncodeToString : List Byte → GoString
  | [] => []
  | v :: rest =>
    hextable.getD (v.val >>> 4) 0 :: hextable.getD (v.val &&& 0x0f) 0 :: EncodeToString rest

/-- `fromHexChar`: the value of a hexadecimal digit, `none` for any other byte. -/
def fromHexChar (c : Byte) : Option Byte :=
  if 48 ≤ c.val ∧ c.val ≤ 57 then some (c - 48)
  else if 97 ≤ c.val ∧ c.val ≤ 102 then some (c - 97 + 10)
  else if 65 ≤ c.val ∧ c.val ≤ 70 then some (c - 65 + 10)
  else none

/-- `hex.DecodeString`: the loop of `hex.Decode` over pairs of characters. Returns the
bytes decoded before the first problem and the error: `InvalidByteError` at the first
character that is no digit, `ErrLength` for an odd length. -/
def DecodeString : GoString → List Byte × Option GoError
  | p :: q :: rest =>
    match fromHexChar p with
    | none => ([], some (.hexInvalidByteError p))
    | some a =>
      match fromHexChar q with
      | none => ([], some (.hexInvalidByteError q))
      | some b =>
        let r := DecodeString rest
        (byte ((a.val <<< 4) ||| b.val) :: r.1, r.2)
  | [p] =>
    match fromHexChar p with
    | none => ([], some (.hexInvalidByteError p))
    | some _ => ([], some .hexErrLength)
  | [] => ([], none)

end hex

/-! ## crypto/sha256 (SHA-224) -/

namespace sha256

/-- Truncation to `uint32`. -/
def u32 (n : Nat) : Nat := n % 4294967296

/-- `bits.RotateLeft32(x, -k)`. -/
def rotr (x k : Nat) : Nat := u32 ((x >>> k) ||| (x <<< (32 - k)))

/-- The round constants `_K`. -/
def K : List Nat := [
  0x428a2f98, 0x71374491, 0xb5c0fbcf, 0xe9b5dba5, 0x3956c25b, 0x59f111f1, 0x923f82a4, 0xab1c5ed5,
  0xd807aa98, 0x12835b01, 0x243185be, 0x550c7dc3, 0x72be5d74, 0x80deb1fe, 0x9bdc06a7, 0xc19bf174,
  0xe49b69c1, 0xefbe4786, 0x0fc19dc6, 0x240ca1cc, 0x2de92c6f, 0x4a7484aa, 0x5cb0a9dc, 0x76f988da,
  0x983e5152, 0xa831c66d, 0xb00327c8, 0xbf597fc7, 0xc6e00bf3, 0xd5a79147, 0x06ca6351, 0x14292967,
  0x27b70a85, 0x2e1b2138, 0x4d2c6dfc, 0x53380d13, 0x650a7354, 0x766a0abb, 0x81c2c92e, 0x92722c85,
  0xa2bfe8a1, 0xa81a664b, 0xc24b8b70, 0xc76c51a3, 0xd192e819, 0xd6990624, 0xf40e3585, 0x106aa070,
  0x19a4c116, 0x1e376c08, 0x2748774c, 0x34b0bcb5, 0x391c0cb3, 0x4ed8aa4a, 0x5b9cca4f, 0x682e6ff3,
  0x748f82ee, 0x78a5636f, 0x84c87814, 0x8cc70208, 0x90befffa, 0xa4506ceb, 0xbef9a3f7, 0xc67178f2]

/-- The eight words `h[0..7]` of a digest's state. -/
structure State where
  h0 : Nat
  h1 : Nat
  h2 : Nat
  h3 : Nat
  h4 : Nat
  h5 : Nat
  h6 : Nat
  h7 : Nat

/-- The initial state of SHA-224 (`init0_224 .. init7_224`). -/
def init224 : State :=
  ⟨0xC1059ED8, 0x367CD507, 0x3070DD17, 0xF70E5939, 0xFFC00B31, 0x68581511, 0x64F98FA7, 0xBEFA4FA4⟩

/-- The first sixteen words `w[0..15]` of a block, big-endian. -/
def words16 : List Byte → List Nat
  | a :: b :: c :: d :: rest =>
    ((a.val <<< 24) ||| (b.val <<< 16) ||| (c.val <<< 8) ||| d.val) :: words16 rest
  | _ => []

/-- The word `w[i]` for `16 ≤ i`, from the words before it. -/
def extend (w : List Nat) (i : Nat) : Nat :=
  let v1 := w.getD (i - 2) 0
  let t1 := (rotr v1 17) ^^^ (rotr v1 19) ^^^ (v1 >>> 10)
  let v2 := w.getD (i - 15) 0
  let t2 := (rotr v2 7) ^^^ (rotr v2 18) ^^^ (v2 >>> 3)
  u32 (t1 + w.getD (i - 7) 0 + t2 + w.getD (i - 16) 0)

/-- The message schedule `w[0..63]` of one 64-byte block. -/
def schedule (p : List Byte) : List Nat :=
  (List.range 48).foldl (fun w i => w ++ [extend w (i + 16)]) (words16 p)

/-- One of the 64 rounds of `blockGeneric` on the working variables `a..h`. -/
def step (w : List Nat) (s : State) (i : Nat) : State :=
  let t1 := u32 (s.h7 + ((rotr s.h4 6) ^^^ (rotr s.h4 11) ^^^ (rotr s.h4 25))
    + ((s.h4 &&& s.h5) ^^^ ((s.h4 ^^^ 4294967295) &&& s.h6)) + K.getD i 0 + w.getD i 0)
  let t2 := u32 (((rotr s.h0 2) ^^^ (rotr s.h0 13) ^^^ (rotr s.h0 22))
    + ((s.h0 &&& s.h1) ^^^ (s.h0 &&& s.h2) ^^^ (s.h1 &&& s.h2)))
  ⟨u32 (t1 + t2), s.h0, s.h1, s.h2, u32 (s.h3 + t1), s.h4, s.h5, s.h6⟩

/-- The body of `blockGeneric` for one 64-byte block. -/
def block1 (d : State) (p : List Byte) : State :=
  let w := schedule p
  let r := (List.range 64).foldl (step w) d
  ⟨u32 (d.h0 + r.h0), u32 (d.h1 + r.h1), u32 (d.h2 + r.h2), u32 (d.h3 + r.h3),
   u32 (d.h4 + r.h4), u32 (d.h5 + r.h5), u32 (d.h6 + r.h6), u32 (d.h7 + r.h7)⟩

/-- The loop of `blockGeneric`: one `block1` per whole 64-byte block; `n` bounds the
number of blocks. -/
def blocks (n : Nat) (d : State) (p : List Byte) : State :=
  match n with
  | 0 => d
  | n + 1 => if p.length < 64 then d else blocks n (block1 d (p.take 64)) (p.drop 64)

/-- `binary.BigEndian.PutUint64`. -/
def be64 (n : Nat) : List Byte :=
  [byte (n >>> 56), byte (n >>> 48), byte (n >>> 40), byte (n >>> 32),
   byte (n >>> 24), byte (n >>> 16), byte (n >>> 8), byte n]

/-- `binary.BigEndian.PutUint32`. -/
def be32 (n : Nat) : List Byte := [byte (n >>> 24), byte (n >>> 16), byte (n >>> 8), byte n]

/-- The padding `checkSum` appends to a message of `len` bytes: `0x80`, zeros up to 56
modulo 64, and the length in bits as a `uint64`. -/
def padding (len : Nat) : List Byte :=
  let t := if len % 64 < 56 then 56 - len % 64 else 64 + 56 - len % 64
  (byte 0x80 :: List.replicate (t - 1) 0) ++ be64 ((len <<< 3) % 18446744073709551616)

/-- The words `h[0..6]` of the final state, big-endian: the 28 bytes of the digest. -/
def digest224 (d : State) : Bytes28 :=
  ⟨be32 d.h0 ++ be32 d.h1 ++ be32 d.h2 ++ be32 d.h3 ++ be32 d.h4 ++ be32 d.h5 ++ be32 d.h6, rfl⟩

/-- `sha256.Sum224`. -/
def Sum224 (data : List Byte) : Bytes28 :=
  let m := data ++ padding data.length
  digest224 (blocks (m.length / 64) init224 m)

end sha256

/-! ## index/sha224.go -/

namespace index

/-- `SHA224DexIDLen = sha256.Size224`. -/
def SHA224DexIDLen : Nat := 28

/-- `SHA224DexIDHexLen = sha256.Size224 * 2`. -/
def SHA224DexIDHexLen : Nat := 28 * 2

/-- `type SHA224DexID struct { value [SHA224DexIDLen]byte }`. -/
structure SHA224DexID where
  value : Bytes28
  deriving DecidableEq

namespace SHA224DexID

/-- `Algo`: the constant `DexIDTypeSHA224`, which is declared outside the files at hand
and is therefore an argument. -/
def Algo (DexIDTypeSHA224 : Byte) (_id : SHA224DexID) : Byte := DexIDTypeSHA224

/-- `Value`: the slice `id.value[:]`. -/
def Value (id : SHA224DexID) : List Byte := id.value.val

/-- `HexString`. -/
def HexString (id : SHA224DexID) : GoString := hex.EncodeToString id.value.val

/-- `SetValue`: `copy(id.value[:], val)`. -/
def SetValue (id : SHA224DexID) (val : List Byte) : SHA224DexID :=
  ⟨⟨goCopy id.value.val val, by
    have h := id.value.property
    simp only [goCopy, List.length_append, List.length_take, List.length_drop]
    omega⟩⟩

/-- `SetValueFromString`. -/
def SetValueFromString (_id : SHA224DexID) (val : GoString) : SHA224DexID :=
  ⟨sha256.Sum224 val⟩

/-- `SetValueFromHexString`: the receiver after the call and the error returned. -/
def SetValueFromHexString (id : SHA224DexID) (val : GoString) : SHA224DexID × Option GoError :=
  if val.length ≠ SHA224DexIDHexLen then
    (id, some (.errorsNew "invalid hex string"))
  else
    match hex.DecodeString val with
    | (_, some err) => (id, some err)
    | (raw, none) => (id.SetValue raw, none)

end SHA224DexID

end index

/-! ## store/factory.go -/

namespace store

/-- The values of the interface `Store` that the file builds: `MemoryStore{}` is the
only one (its type is declared outside the files at hand). -/
inductive Store where
  | MemoryStore
  deriving DecidableEq, Repr

/-- `GetStore`: the store (`none` is the nil interface) and the error. -/
def GetStore (name : GoString) : Option Store × Option GoError :=
  if name = lit "memory" then (some .MemoryStore, none)
  else if name = lit "mysql" ∨ name = lit "mariadb" then (none, some (.errorsNew "work in progress"))
  else (none, some (.errorsNew "unknown store"))

end store

/-! ## strings -/

namespace strings

/-- `strings.Cut(s, sep)` for a one-byte separator: the text before the first `sep`, the
text after it, and whether `sep` occurs. -/
def Cut (s : GoString) (sep : Byte) : GoString × GoString × Bool :=
  if sep ∈ s then (s.takeWhile (fun c => c ≠ sep), (s.dropWhile (fun c => c ≠ sep)).drop 1, true)
  else (s, [], false)

/-- `strings.HasPrefix`. -/
def HasPrefix (s p : GoString) : Bool := p.isPrefixOf s

/-- `strings.HasSuffix`. -/
def HasSuffix (s p : GoString) : Bool := p.isSuffixOf s

/-- `strings.ToLower` on a string of ASCII bytes (a URL scheme has no others). -/
def ToLower (s : GoString) : GoString :=
  s.map (fun c => if 65 ≤ c.val ∧ c.val ≤ 90 then c + 32 else c)

end strings

/-! ## net/url: `Parse` -/

namespace url

/-- `type Userinfo`. -/
structure Userinfo where
  username : GoString
  password : GoString
  passwordSet : Bool
  deriving DecidableEq, Repr

/-- `type URL`. -/
structure URL where
  Scheme : GoString
  Opaque : GoString
  User : Option Userinfo
  Host : GoString
  Path : GoString
  RawPath : GoString
  OmitHost : Bool
  ForceQuery : Bool
  RawQuery : GoString
  Fragment : GoString
  RawFragment : GoString
  deriving DecidableEq, Repr

/-- The zero value `URL{}` (`new(URL)`). -/
def URL.zero : URL := ⟨[], [], none, [], [], [], false, false, [], [], []⟩

/-- `type encoding`. -/
inductive encoding where
  | encodePath
  | encodePathSegment
  | encodeHost
  | encodeZone
  | encodeUserPassword
  | encodeQueryComponent
  | encodeFragment
  deriving DecidableEq, Repr

/-- `ishex`. -/
def ishex (c : Byte) : Bool :=
  (48 ≤ c.val ∧ c.val ≤ 57) ∨ (97 ≤ c.val ∧ c.val ≤ 102) ∨ (65 ≤ c.val ∧ c.val ≤ 70)

/-- `unhex`. -/
def unhex (c : Byte) : Byte :=
  if 48 ≤ c.val ∧ c.val ≤ 57 then c - 48
  else if 97 ≤ c.val ∧ c.val ≤ 102 then c - 97 + 10
  else if 65 ≤ c.val ∧ c.val ≤ 70 then c - 65 + 10
  else 0

/-- `shouldEscape`: whether the byte must be escaped in the given part of a URL. -/
def shouldEscape (c : Byte) (mode : encoding) : Bool :=
  if (97 ≤ c.val ∧ c.val ≤ 122) ∨ (65 ≤ c.val ∧ c.val ≤ 90) ∨ (48 ≤ c.val ∧ c.val ≤ 57) then false
  else if (mode = .encodeHost ∨ mode = .encodeZone) ∧ c ∈ lit "!$&'()*+,;=:[]<>\"" then false
  else if c ∈ lit "-_.~" then false
  else if c ∈ lit "$&+,/:;=?@" then
    match mode with
    | .encodePath => c = 63
    | .encodePathSegment => c = 47 ∨ c = 59 ∨ c = 44 ∨ c = 63
    | .encodeUserPassword => c = 64 ∨ c = 47 ∨ c = 63 ∨ c = 58
    | .encodeQueryComponent => true
    | .encodeFragment => false
    | _ => true
  else if mode = .encodeFragment ∧ c ∈ lit "!()*" then false
  else true

/-- The first loop of `unescape`: the error it returns for a malformed `%` escape or,
in a host, for a byte that a host cannot hold; `none` when the string passes. -/
def unescapeCheck (mode : encoding) : GoString → Option GoError
  | [] => none
  | c :: rest =>
    if c = 37 then
      match rest with
      | a :: b :: rest2 =>
        if !ishex a || !ishex b then some (.urlEscapeError [c, a, b])
        else if mode = .encodeHost ∧ (unhex a).val < 8 ∧ [c, a, b] ≠ lit "%25" then
          some (.urlEscapeError [c, a, b])
        else if mode = .encodeZone ∧ [c, a, b] ≠ lit "%25"
            ∧ byte (((unhex a).val <<< 4) ||| (unhex b).val) ≠ 32
            ∧ shouldEscape (byte (((unhex a).val <<< 4) ||| (unhex b).val)) .encodeHost then
          some (.urlEscapeError [c, a, b])
        else unescapeCheck mode rest2
      | _ => some (.urlEscapeError (c :: rest))
    else if c = 43 then unescapeCheck mode rest
    else if (mode = .encodeHost ∨ mode = .encodeZone) ∧ c.val < 128
        ∧ shouldEscape c .encodeHost then
      some (.urlInvalidHostError [c])
    else unescapeCheck mode rest

/-- The second loop of `unescape`: `%XX` becomes the byte it names, and `+` a space in
a query component. (When the string has nothing to replace, Go returns it as it is,
which is what this loop produces as well.) -/
def unescapeWrite (mode : encoding) : GoString → GoString
  | [] => []
  | c :: rest =>
    if c = 37 then
      match rest with
      | a :: b :: rest2 => byte (((unhex a).val <<< 4) ||| (unhex b).val) :: unescapeWrite mode rest2
      | _ => []
    else if c = 43 then (if mode = .encodeQueryComponent then 32 else 43) :: unescapeWrite mode rest
    else c :: unescapeWrite mode rest

/-- `unescape`. -/
def unescape (s : GoString) (mode : encoding) : Except GoError GoString :=
  match unescapeCheck mode s with
  | some err => .error err
  | none => .ok (unescapeWrite mode s)

/-- `upperhex`. -/
def upperhex : GoString := lit "0123456789ABCDEF"

/-- `escape`: a space becomes `+` in a query component, a byte that `shouldEscape`
becomes `%XX`. -/
def escape (s : GoString) (mode : encoding) : GoString :=
  s.flatMap (fun c =>
    if c = 32 ∧ mode = .encodeQueryComponent then [43]
    else if shouldEscape c mode then [37, upperhex.getD (c.val >>> 4) 0, upperhex.getD (c.val &&& 15) 0]
    else [c])

/-- `(*URL).setPath`. -/
def setPath (u : URL) (p : GoString) : Except GoError URL :=
  match unescape p .encodePath with
  | .error err => .error err
  | .ok path =>
    .ok { u with Path := path, RawPath := if p = escape path .encodePath then [] else p }

/-- `(*URL).setFragment`. -/
def setFragment (u : URL) (f : GoString) : Except GoError URL :=
  match unescape f .encodeFragment with
  | .error err => .error err
  | .ok frag =>
    .ok { u with Fragment := frag, RawFragment := if f = escape frag .encodeFragment then [] else f }

/-- `validEncoded`: whether the string is a valid encoding for the given part. -/
def validEncoded (s : GoString) (mode : encoding) : Bool :=
  s.all (fun c => c ∈ lit "!$&'()*+,;=:@[]%" || !shouldEscape c mode)

/-- The test `p, err := unescape(raw, mode); err == nil && p == plain` of `EscapedPath`
and `EscapedFragment`. -/
def unescapesTo (raw plain : GoString) (mode : encoding) : Bool :=
  match unescape raw mode with
  | .ok p => p = plain
  | .error _ => false

/-- `(*URL).EscapedPath`. -/
def URL.EscapedPath (u : URL) : GoString :=
  if u.RawPath ≠ [] ∧ validEncoded u.RawPath .encodePath
      ∧ unescapesTo u.RawPath u.Path .encodePath then u.RawPath
  else if u.Path = lit "*" then lit "*"
  else escape u.Path .encodePath

/-- `(*URL).EscapedFragment`. -/
def URL.EscapedFragment (u : URL) : GoString :=
  if u.RawFragment ≠ [] ∧ validEncoded u.RawFragment .encodeFragment
      ∧ unescapesTo u.RawFragment u.Fragment .encodeFragment then u.RawFragment
  else escape u.Fragment .encodeFragment

/-- `(*Userinfo).String` for a non-nil receiver. -/
def Userinfo.String (ui : Userinfo) : GoString :=
  escape ui.username .encodeUserPassword ++
    (if ui.passwordSet then lit ":" ++ escape ui.password .encodeUserPassword else [])

/-- The part of `(*URL).String` between the scheme and the query, for a URL that is not
opaque: `//`, user information and host, then the path. -/
def URL.hierPart (u : URL) : GoString :=
  let auth : GoString :=
    if u.Scheme ≠ [] ∨ u.Host ≠ [] ∨ u.User ≠ none then
      if u.OmitHost ∧ u.Host = [] ∧ u.User = none then []
      else
        (if u.Host ≠ [] ∨ u.Path ≠ [] ∨ u.User ≠ none then lit "//" else []) ++
        (match u.User with
          | some ui => ui.String ++ lit "@"
          | none => []) ++
        (if u.Host ≠ [] then escape u.Host .encodeHost else [])
    else []
  let path := u.EscapedPath
  let slash : GoString := if path ≠ [] ∧ path.head? ≠ some 47 ∧ u.Host ≠ [] then lit "/" else []
  let dot : GoString :=
    if u.Scheme = [] ∧ auth = [] ∧ slash = [] ∧ (58 : Byte) ∈ (strings.Cut path 47).1 then lit "./"
    else []
  auth ++ slash ++ dot ++ path

/-- `(*URL).String`. -/
def URL.String (u : URL) : GoString :=
  (if u.Scheme ≠ [] then u.Scheme ++ lit ":" else []) ++
  (if u.Opaque ≠ [] then u.Opaque else u.hierPart) ++
  (if u.ForceQuery ∨ u.RawQuery ≠ [] then lit "?" ++ u.RawQuery else []) ++
  (if u.Fragment ≠ [] then lit "#" ++ u.EscapedFragment else [])

/-- `stringContainsCTLByte`. -/
def stringContainsCTLByte (s : GoString) : Bool := s.any (fun b => b.val < 32 || b.val = 127)

/-- The loop of `getScheme` from position `i`, `s` being `rawURL[i:]`. -/
def getSchemeFrom (rawURL : GoString) : Nat → GoString → Except GoError (GoString × GoString)
  | _, [] => .ok ([], rawURL)
  | i, c :: s =>
    if (97 ≤ c.val ∧ c.val ≤ 122) ∨ (65 ≤ c.val ∧ c.val ≤ 90) then getSchemeFrom rawURL (i + 1) s
    else if (48 ≤ c.val ∧ c.val ≤ 57) ∨ c = 43 ∨ c = 45 ∨ c = 46 then
      if i = 0 then .ok ([], rawURL) else getSchemeFrom rawURL (i + 1) s
    else if c = 58 then
      if i = 0 then .error (.errorsNew "missing protocol scheme")
      else .ok (rawURL.take i, rawURL.drop (i + 1))
    else .ok ([], rawURL)

/-- `getScheme`: the scheme before the first `:` and the rest, or no scheme. -/
def getScheme (rawURL : GoString) : Except GoError (GoString × GoString) :=
  getSchemeFrom rawURL 0 rawURL

/-- The type of `parseAuthority`: user information and host of an authority. The
function is an argument of `parse`; it is only reached for a URL with `//`. -/
abbrev ParseAuthority := GoString → Except GoError (Option Userinfo × GoString)

/-- The last part of `parse`: the authority after `//`, then the path. -/
def parseRest (parseAuthority : ParseAuthority) (viaRequest : Bool) (u : URL) (rest : GoString) :
    Except GoError URL :=
  if (u.Scheme ≠ [] ∨ (!viaRequest ∧ !strings.HasPrefix rest (lit "///")))
      ∧ strings.HasPrefix rest (lit "//") then
    let authority := rest.drop 2
    let host := authority.takeWhile (fun c => c ≠ 47)
    match parseAuthority host with
    | .error err => .error err
    | .ok (user, h) => setPath { u with User := user, Host := h } (authority.dropWhile (fun c => c ≠ 47))
  else if u.Scheme ≠ [] ∧ strings.HasPrefix rest (lit "/") then
    setPath { u with OmitHost := true } rest
  else setPath u rest

/-- `parse(rawURL, viaRequest)`. -/
def parse (parseAuthority : ParseAuthority) (rawURL : GoString) (viaRequest : Bool) :
    Except GoError URL :=
  if stringContainsCTLByte rawURL then
    .error (.errorsNew "net/url: invalid control character in URL")
  else if rawURL = [] ∧ viaRequest then .error (.errorsNew "empty url")
  else if rawURL = lit "*" then .ok { URL.zero with Path := lit "*" }
  else
    match getScheme rawURL with
    | .error err => .error err
    | .ok (scheme, rest0) =>
      let u0 := { URL.zero with Scheme := strings.ToLower scheme }
      let split : URL × GoString :=
        if strings.HasSuffix rest0 (lit "?") ∧ rest0.count 63 = 1 then
          ({ u0 with ForceQuery := true }, rest0.dropLast)
        else ({ u0 with RawQuery := (strings.Cut rest0 63).2.1 }, (strings.Cut rest0 63).1)
      let u := split.1
      let rest := split.2
      if !strings.HasPrefix rest (lit "/") then
        if u.Scheme ≠ [] then .ok { u with Opaque := rest }
        else if viaRequest then .error (.errorsNew "invalid URI for request")
        else if (58 : Byte) ∈ (strings.Cut rest 47).1 then
          .error (.errorsNew "first path segment in URL cannot contain colon")
        else parseRest parseAuthority viaRequest u rest
      else parseRest parseAuthority viaRequest u rest

/-- `url.Parse`. -/
def Parse (parseAuthority : ParseAuthority) (rawURL : GoString) : Except GoError URL :=
  let u := (strings.Cut rawURL 35).1
  let frag := (strings.Cut rawURL 35).2.1
  match parse parseAuthority u false with
  | .error err => .error (.urlError "parse" u err)
  | .ok url =>
    if frag = [] then .ok url
    else
      match setFragment url frag with
      | .error err => .error (.urlError "parse" rawURL err)
      | .ok url2 => .ok url2

end url

/-! ## The feed package, as far as `Sync` uses it -/

namespace feed

/-- Modelled from the spec: the parsed feed that `feed.ParseAtomFeed` returns, whose
declaration is not among the files at hand (§3 ParsedFeed: the identifier of the
subscription, assigned by the pipeline after parsing, and an ordered list of entries). -/
structure AtomFeed where
  SubscriptionID : Bytes28
  Entries : List GoString
  deriving DecidableEq

/-- Modelled from the spec: the closed set of formats of §4.3 and the glossary (RSS,
Atom), with the outcome `UnknownFormat` for a payload of neither. -/
inductive FormatKind where
  | RSS
  | Atom
  | UnknownFormat
  deriving DecidableEq, Repr

/-- The states of the scan for the root element: in text, inside a `<?...>` or `<!...>`
construct, inside the first other tag (with what was read of it). -/
inductive Scan where
  | text
  | skip
  | tag (read : GoString)

/-- Modelled from the spec: the root element of a payload (§4.3: a sniff of structural
markers that needs no more well-formedness than identifying the root element takes): the
text between `<` and `>` of the first tag that is no `<?...>` or `<!...>` construct. -/
def rootElementFrom : Scan → GoString → Option GoString
  | _, [] => none
  | .text, c :: rest =>
    if c = 60 then
      match rest with
      | d :: _ => if d = 63 ∨ d = 33 then rootElementFrom .skip rest else rootElementFrom (.tag []) rest
      | [] => none
    else rootElementFrom .text rest
  | .skip, c :: rest => if c = 62 then rootElementFrom .text rest else rootElementFrom .skip rest
  | .tag read, c :: rest => if c = 62 then some read else rootElementFrom (.tag (read ++ [c])) rest

/-- Modelled from the spec: `detect` of §4.3, by the root elements of §8 (format dispatch):
`<rss version="2.0">` is RSS, `<feed xmlns="http://www.w3.org/2005/Atom">` is Atom, any
other root element (or none) is `UnknownFormat`. -/
def detect (payload : List Byte) : FormatKind :=
  match rootElementFrom .text payload with
  | none => .UnknownFormat
  | some root =>
    if root = lit "rss version=\"2.0\"" then .RSS
    else if root = lit "feed xmlns=\"http://www.w3.org/2005/Atom\"" then .Atom
    else .UnknownFormat

/-- Modelled from the spec: `feed.IsAtomFeed`, which is not among the files at hand (only
its test is): the payload is classified as Atom. -/
def IsAtomFeed (payload : List Byte) : Bool := detect payload = .Atom

/-- `rssDoc` of `feed/detector_test.go`. -/
def rssDoc : List Byte := lit "<?xml version=\"1.0\" encoding=\"UTF-8\"?><rss version=\"2.0\"></rss>"

/-- `atomDoc` of `feed/detector_test.go`. -/
def atomDoc : List Byte :=
  lit "<?xml version=\"1.0\" encoding=\"UTF-8\"?><feed xmlns=\"http://www.w3.org/2005/Atom\"></feed>"

end feed

/-! ## subscription/subscription.go -/

namespace subscription

/-- A `time.Time`; the code only stores and copies it. -/
structure Time where
  ticks : Int
  deriving DecidableEq, Repr

/-- The zero value of `time.Time`. -/
def Time.zero : Time := ⟨0⟩

/-- `type Subscription struct`. -/
structure Subscription where
  ID : Bytes28
  FeedURL : url.URL
  unreachable : Bool
  checksum : Bytes28
  createdAt : Time
  lastSyncedAt : Time
  deriving DecidableEq

/-- `New`: the subscription (`none` is the nil pointer) and the error. `parseAuthority`
is the part of `url.Parse` that is not modelled. -/
def New (parseAuthority : url.ParseAuthority) (feedURL : GoString) :
    Option Subscription × Option GoError :=
  match url.Parse parseAuthority feedURL with
  | .error err => (none, some err)
  | .ok u =>
    (some { ID := sha256.Sum224 feedURL, FeedURL := u, unreachable := false,
            checksum := Bytes28.zero, createdAt := Time.zero, lastSyncedAt := Time.zero }, none)

/-- `IsOffline`. -/
def IsOffline (s : Subscription) : Bool := s.unreachable

/-- What `http.Get` hands back when it returns no error, as `Sync` reads it: the status
code, and what `ioutil.ReadAll(resp.Body)` returns (the bytes read and the error). -/
structure Response where
  StatusCode : Int
  body : List Byte
  readErr : Option GoError
  deriving DecidableEq

/-- What one call of `Sync` reads from outside the subscription. -/
structure Env where
  /-- `http.Get` -/
  httpGet : GoString → Except GoError Response
  /-- `time.Now().UTC()` at the one place `Sync` calls it -/
  now : Time
  /-- `feed.IsAtomFeed` -/
  IsAtomFeed : List Byte → Bool
  /-- `feed.ParseAtomFeed` -/
  ParseAtomFeed : List Byte → Except GoError feed.AtomFeed

/-- The calls `Sync` makes to the network and to the feed package. -/
inductive Call where
  | httpGet (url : GoString)
  | readAll
  | isAtomFeed (payload : List Byte)
  | parseAtomFeed (payload : List Byte)
  deriving DecidableEq

/-- The outcome of one call of `Sync`: the subscription afterwards, the error returned,
the calls made in order, and the local `af` after it was stamped (when the parse
succeeded). -/
structure SyncResult where
  sub : Subscription
  err : Option GoError
  calls : List Call
  af : Option feed.AtomFeed
  deriving DecidableEq

/-- `Sync`. -/
def Sync (E : Env) (s : Subscription) : SyncResult :=
  if (s.FeedURL.String).length = 0 then
    ⟨s, some (.fmtErrorf "subscription has no FeedURL" []), [], none⟩
  else if s.unreachable then
    ⟨s, some (.fmtErrorf "%s is unreachable" [.str (s.FeedURL.String)]), [], none⟩
  else
    let s1 := { s with lastSyncedAt := E.now }
    match E.httpGet (s.FeedURL.String) with
    | .error err =>
      ⟨{ s1 with unreachable := true }, some err, [.httpGet (s.FeedURL.String)], none⟩
    | .ok resp =>
      match resp.readErr with
      | some err => ⟨s1, some err, [.httpGet (s.FeedURL.String), .readAll], none⟩
      | none =>
        if resp.StatusCode ≠ 200 then
          ⟨{ s1 with unreachable := true },
            some (.fmtErrorf "sync failure (%d): %s"
              [.int resp.StatusCode, .str (s.FeedURL.String)]),
            [.httpGet (s.FeedURL.String), .readAll], none⟩
        else if s1.checksum = sha256.Sum224 resp.body then
          ⟨s1, none, [.httpGet (s.FeedURL.String), .readAll], none⟩
        else
          let s2 := { s1 with checksum := sha256.Sum224 resp.body }
          if E.IsAtomFeed resp.body then
            match E.ParseAtomFeed resp.body with
            | .error err =>
              ⟨s2, some err, [.httpGet (s.FeedURL.String), .readAll,
                .isAtomFeed resp.body, .parseAtomFeed resp.body], none⟩
            | .ok af =>
              ⟨s2, none, [.httpGet (s.FeedURL.String), .readAll,
                .isAtomFeed resp.body, .parseAtomFeed resp.body],
                some { af with SubscriptionID := s.ID }⟩
          else
            ⟨s2, some (.fmtErrorf "unknown syndication format" []),
              [.httpGet (s.FeedURL.String), .readAll, .isAtomFeed resp.body], none⟩

end subscription

/-! ## Concrete runs -/

namespace sample

/-- A feed URL. -/
def feedURL : GoString := lit "http://example.org/feed.xml"

/-- What `parseAuthority` returns for an authority that is a plain host name: no user
information, and the host as written. -/
def parseAuthority : url.ParseAuthority := fun a => .ok (none, a)

/-- The subscription `New` returns for `feedURL`. -/
def sub : subscription.Subscription :=
  { ID := sha256.Sum224 feedURL,
    FeedURL := { url.URL.zero with Scheme := lit "http", Host := lit "example.org",
                                   Path := lit "/feed.xml" },
    unreachable := false, checksum := Bytes28.zero,
    createdAt := subscription.Time.zero, lastSyncedAt := subscription.Time.zero }

/-- A parser that accepts every payload, with no entries. -/
def parseOk : List Byte → Except GoError feed.AtomFeed := fun _ => .ok ⟨Bytes28.zero, []⟩

/-- A world at time `t` in which the fetch has the outcome `get`. -/
def env (t : Int) (get : Except GoError subscription.Response) : subscription.Env :=
  { httpGet := fun _ => get, now := ⟨t⟩, IsAtomFeed := feed.IsAtomFeed, ParseAtomFeed := parseOk }

/-- A response with status 500 whose body cannot be read in full. -/
def brokenBody500 : subscription.Response :=
  { StatusCode := 500, body := [], readErr := some (.errorsNew "unexpected EOF") }

/-- A payload that is neither RSS nor Atom. -/
def htmlDoc : List Byte := lit "<!DOCTYPE html><html></html>"

/-- A parser that rejects every payload. -/
def parseFails : List Byte → Except GoError feed.AtomFeed :=
  fun _ => .error (.errorsNew "XML syntax error")

/-- A world at time `t` in which the fetch has the outcome `get` and the parser rejects
every payload. -/
def envParseFails (t : Int) (get : Except GoError subscription.Response) : subscription.Env :=
  { httpGet := fun _ => get, now := ⟨t⟩, IsAtomFeed := feed.IsAtomFeed,
    ParseAtomFeed := parseFails }

/-- A response with status 200 whose body cannot be read in full. -/
def brokenBody200 : subscription.Response :=
  { StatusCode := 200, body := lit "<?xml", readErr := some (.errorsNew "unexpected EOF") }

end sample

/-! ## Vocabulary of the statements -/

/-- A hexadecimal digit: `0-9`, `a-f` or `A-F`. -/
def isHexDigit (c : Byte) : Prop :=
  (48 ≤ c.val ∧ c.val ≤ 57) ∨ (97 ≤ c.val ∧ c.val ≤ 102) ∨ (65 ≤ c.val ∧ c.val ≤ 70)

instance (c : Byte) : Decidable (isHexDigit c) := by unfold isHexDigit; infer_instance

/-- A lowercase hexadecimal digit: `0-9` or `a-f`. -/
def isLowerHexDigit (c : Byte) : Prop :=
  (48 ≤ c.val ∧ c.val ≤ 57) ∨ (97 ≤ c.val ∧ c.val ≤ 102)

instance (c : Byte) : Decidable (isLowerHexDigit c) := by unfold isLowerHexDigit; infer_instance

/-- An uppercase hexadecimal digit: `A-F`. -/
def isUpperHexDigit (c : Byte) : Prop := 65 ≤ c.val ∧ c.val ≤ 70

instance (c : Byte) : Decidable (isUpperHexDigit c) := by unfold isUpperHexDigit; infer_instance

/-- The subscription after one call of `Sync` in each of the worlds of the list, in
order. -/
def syncAll (worlds : List subscription.Env) (s : subscription.Subscription) :
    subscription.Subscription :=
  worlds.foldl (fun s E => (subscription.Sync E s).sub) s

/-- The shape of an identifier: `Value()` has 28 bytes, `HexString()` has 56 characters,
all of them lowercase hexadecimal digits, and `Algo()` is the constant. -/
def wellShaped (DexIDTypeSHA224 : Byte) (id : index.SHA224DexID) : Prop :=
  id.Value.length = 28 ∧ id.HexString.length = 56 ∧
  (∀ c ∈ id.HexString, isLowerHexDigit c) ∧ id.Algo DexIDTypeSHA224 = DexIDTypeSHA224

/-! # Theorems -/

/-! ## crypto/sha256: the test vectors of FIPS 180 for SHA-224 -/

set_option maxRecDepth 100000 in
theorem Sum224_empty : hex.EncodeToString (sha256.Sum224 (lit "")).val =
    lit "d14a028c2a3a2bc9476102bb288234c415a2b01f828ea62ac5b3e42f" := by
  decide

set_option maxRecDepth 100000 in
theorem Sum224_abc : hex.EncodeToString (sha256.Sum224 (lit "abc")).val =
    lit "23097d223405d8228642a477bda255b32aadbce4bda0b3f7e36c9da7" := by
  decide

/-! ## encoding/hex and the identifier -/

set_option maxRecDepth 100000 in
theorem hex_digits_of_byte : ∀ v : Byte,
    hex.fromHexChar (hex.hextable.getD (v.val >>> 4) 0) = some (byte (v.val >>> 4)) ∧
    hex.fromHexChar (hex.hextable.getD (v.val &&& 0x0f) 0) = some (byte (v.val &&& 0x0f)) ∧
    byte (((byte (v.val >>> 4)).val <<< 4) ||| (byte (v.val &&& 0x0f)).val) = v := by
  decide

theorem length_EncodeToString (l : List Byte) : (hex.EncodeToString l).length = 2 * l.length := by
  induction l with
  | nil => rfl
  | cons v rest ih => simp only [hex.EncodeToString, List.length_cons, ih]; omega

theorem DecodeString_EncodeToString (l : List Byte) :
    hex.DecodeString (hex.EncodeToString l) = (l, none) := by
  induction l with
  | nil => rfl
  | cons v rest ih =>
    obtain ⟨h1, h2, h3⟩ := hex_digits_of_byte v
    simp only [hex.EncodeToString, hex.DecodeString, h1, h2, ih, h3]

theorem fromHexChar_isSome_iff (c : Byte) : (hex.fromHexChar c).isSome = true ↔ isHexDigit c := by
  unfold hex.fromHexChar isHexDigit
  split_ifs with h1 h2 h3 <;> simp_all

theorem fromHexChar_eq_none_iff (c : Byte) : hex.fromHexChar c = none ↔ ¬ isHexDigit c := by
  rw [← fromHexChar_isSome_iff]; cases hex.fromHexChar c <;> simp

/-- The error of `DecodeString`: the first character that is no digit, `ErrLength` for
an odd number of digits, none otherwise. -/
theorem DecodeString_error (s : GoString) :
    (hex.DecodeString s).2 =
      match s.find? (fun c => decide (¬ isHexDigit c)) with
      | some b => some (.hexInvalidByteError b)
      | none => if s.length % 2 = 1 then some .hexErrLength else none := by
  induction s using hex.DecodeString.induct with
  | case1 p q rest hp =>
    have : ¬ isHexDigit p := (fromHexChar_eq_none_iff p).1 hp
    simp [hex.DecodeString, hp, List.find?, this]
  | case2 p q rest a hp hq =>
    have h1 : isHexDigit p := (fromHexChar_isSome_iff p).1 (by simp [hp])
    have h2 : ¬ isHexDigit q := (fromHexChar_eq_none_iff q).1 hq
    simp [hex.DecodeString, hp, hq, List.find?, h1, h2]
  | case3 p q rest a hp b hq ih =>
    have h1 : isHexDigit p := (fromHexChar_isSome_iff p).1 (by simp [hp])
    have h2 : isHexDigit q := (fromHexChar_isSome_iff q).1 (by simp [hq])
    have h3 : (rest.length + 1 + 1) % 2 = rest.length % 2 := by omega
    simp only [hex.DecodeString, hp, hq, ih, List.find?, h1, h2, not_true_eq_false,
      decide_False, List.length_cons, h3]
  | case4 p hp =>
    have : ¬ isHexDigit p := (fromHexChar_eq_none_iff p).1 hp
    simp [hex.DecodeString, hp, List.find?, this]
  | case5 p a hp =>
    have h1 : isHexDigit p := (fromHexChar_isSome_iff p).1 (by simp [hp])
    simp [hex.DecodeString, hp, List.find?, h1]
  | case6 => rfl

theorem find_nonhex_eq_none_iff (s : GoString) :
    s.find? (fun c => decide (¬ isHexDigit c)) = none ↔ ∀ c ∈ s, isHexDigit c := by
  simp [List.find?_eq_none]

/-- The error of `SetValueFromHexString`, in closed form. -/
theorem SetValueFromHexString_snd (id : index.SHA224DexID) (s : GoString) :
    (id.SetValueFromHexString s).2 =
      if s.length ≠ 56 then some (.errorsNew "invalid hex string")
      else match s.find? (fun c => decide (¬ isHexDigit c)) with
        | some b => some (.hexInvalidByteError b)
        | none => none := by
  unfold index.SHA224DexID.SetValueFromHexString index.SHA224DexIDHexLen
  by_cases hlen : s.length = 56
  · have herr := DecodeString_error s
    have hodd : ¬ (s.length % 2 = 1) := by omega
    simp only [hlen, ne_eq, not_true_eq_false, if_false, if_true]
    rcases hd : hex.DecodeString s with ⟨raw, err⟩
    rw [hd] at herr
    simp only [hlen] at hodd
    simp only at herr
    cases hf : s.find? (fun c => decide (¬ isHexDigit c)) with
    | none =>
      rw [hf] at herr
      simp only [hlen] at herr
      simp at herr
      subst herr
      rfl
    | some b =>
      rw [hf] at herr
      simp only at herr
      subst herr
      rfl
  · simp [hlen]

theorem goCopy_of_length_eq (dst src : List Byte) (h : src.length = dst.length) :
    goCopy dst src = src := by
  unfold goCopy
  rw [List.take_of_length_le (by omega), List.drop_eq_nil_of_le (by omega), List.append_nil]

/-- C1 (hex round-trip): for every identifier `i` and every receiver `r`,
`r.SetValueFromHexString(i.HexString())` returns no error and leaves `r` with the
value, the `Value()` slice and the `Algo()` of `i` (so `r` equals `i`). -/
theorem hex_round_trip (DexIDTypeSHA224 : Byte) (i r : index.SHA224DexID) :
    (r.SetValueFromHexString i.HexString).2 = none ∧
    (r.SetValueFromHexString i.HexString).1 = i ∧
    (r.SetValueFromHexString i.HexString).1.Value = i.Value ∧
    (r.SetValueFromHexString i.HexString).1.Algo DexIDTypeSHA224 = i.Algo DexIDTypeSHA224 := by
  have hi := i.value.property
  have hr := r.value.property
  have hlen : (hex.EncodeToString i.value.val).length = 56 := by
    rw [length_EncodeToString, hi]
  have hset : r.SetValueFromHexString i.HexString = (i, none) := by
    unfold index.SHA224DexID.SetValueFromHexString index.SHA224DexID.HexString
      index.SHA224DexIDHexLen
    simp only [hlen, ne_eq, not_true_eq_false, if_false, DecodeString_EncodeToString]
    congr 1
    cases i with
    | mk v =>
      simp only [index.SHA224DexID.SetValue, index.SHA224DexID.mk.injEq]
      exact Subtype.ext (goCopy_of_length_eq _ _ (by rw [hr]; exact hi))
  rw [hset]
  exact ⟨rfl, rfl, rfl, rfl⟩


/-- C2 (decoding fails exactly on bad input): `SetValueFromHexString(s)` returns an error
if and only if `len(s) != 56` or `s` holds a character that is no hexadecimal digit; a
string of the wrong length gets the length error `errors.New("invalid hex string")`
whatever its characters, and a 56-character string with a character that is no digit gets
`hex.InvalidByteError` of its first such character, which is a different error. -/
theorem SetValueFromHexString_fails_iff (id : index.SHA224DexID) (s : GoString) :
    ((id.SetValueFromHexString s).2 ≠ none ↔ (s.length ≠ 56 ∨ ∃ c ∈ s, ¬ isHexDigit c)) ∧
    (s.length ≠ 56 →
      (id.SetValueFromHexString s).2 = some (.errorsNew "invalid hex string")) ∧
    (s.length = 56 → (∃ c ∈ s, ¬ isHexDigit c) →
      ∃ b ∈ s, ¬ isHexDigit b ∧
        s.find? (fun c => decide (¬ isHexDigit c)) = some b ∧
        (id.SetValueFromHexString s).2 = some (.hexInvalidByteError b) ∧
        GoError.hexInvalidByteError b ≠ .errorsNew "invalid hex string") := by
  have hsnd := SetValueFromHexString_snd id s
  refine ⟨?_, ?_, ?_⟩
  · rw [hsnd]
    by_cases hlen : s.length = 56
    · cases hf : s.find? (fun c => decide (¬ isHexDigit c)) with
      | none =>
        have hall := (find_nonhex_eq_none_iff s).1 hf
        simp only [hlen, ne_eq, not_true_eq_false, if_false, false_or]
        constructor
        · intro h; exact h.elim
        · rintro ⟨c, hc, hn⟩; exact absurd (hall c hc) hn
      | some b =>
        have hb := List.find?_some hf
        have hmem := List.mem_of_find?_eq_some hf
        simp only [hlen, ne_eq, not_true_eq_false, if_false, false_or]
        constructor
        · intro _; exact ⟨b, hmem, by simpa using hb⟩
        · intro _; simp
    · simp [hlen]
  · intro hlen
    rw [hsnd]; simp [hlen]
  · rintro hlen ⟨c, hc, hn⟩
    rw [hsnd]
    cases hf : s.find? (fun c => decide (¬ isHexDigit c)) with
    | none => exact absurd ((find_nonhex_eq_none_iff s).1 hf c hc) hn
    | some b =>
      have hb := List.find?_some hf
      have hmem := List.mem_of_find?_eq_some hf
      refine ⟨b, hmem, by simpa using hb, rfl, ?_, by simp⟩
      simp [hlen]

/-- C2 at a string of 55 digits (the length error) and at a 56-character string whose
first character is `g` (the encoding error, for that `g`). -/
theorem SetValueFromHexString_fails_iff_witness :
    ((⟨Bytes28.zero⟩ : index.SHA224DexID).SetValueFromHexString (List.replicate 55 97)).2
      = some (.errorsNew "invalid hex string") ∧
    ((⟨Bytes28.zero⟩ : index.SHA224DexID).SetValueFromHexString
        (103 :: List.replicate 55 48)).2 = some (.hexInvalidByteError 103) :=
  ⟨(SetValueFromHexString_fails_iff ⟨Bytes28.zero⟩ (List.replicate 55 97)).2.1 (by decide),
   by
    obtain ⟨b, _, _, hfind, herr, _⟩ :=
      (SetValueFromHexString_fails_iff ⟨Bytes28.zero⟩ (103 :: List.replicate 55 48)).2.2
        (by decide) ⟨103, by decide, by decide⟩
    have hb : b = 103 := by
      have : (103 :: List.replicate 55 (48 : Byte)).find? (fun c => decide (¬ isHexDigit c))
          = some 103 := by decide
      rw [this] at hfind
      exact (Option.some.inj hfind).symm
    rw [herr, hb]⟩

/-- C3 (storage resolution): `GetStore("memory")` returns a store and no error;
`GetStore("mysql")` and `GetStore("mariadb")` return no store and the error "work in
progress"; every other name, `"postgres"` among them, returns no store and the error
"unknown store", which differs from "work in progress"; and for every name exactly one of
the store and the error is non-nil. -/
theorem GetStore_resolution (name : GoString) :
    store.GetStore (lit "memory") = (some .MemoryStore, none) ∧
    store.GetStore (lit "mysql") = (none, some (.errorsNew "work in progress")) ∧
    store.GetStore (lit "mariadb") = (none, some (.errorsNew "work in progress")) ∧
    store.GetStore (lit "postgres") = (none, some (.errorsNew "unknown store")) ∧
    (name ≠ lit "memory" → name ≠ lit "mysql" → name ≠ lit "mariadb" →
      store.GetStore name = (none, some (.errorsNew "unknown store"))) ∧
    GoError.errorsNew "unknown store" ≠ GoError.errorsNew "work in progress" ∧
    ((store.GetStore name).1.isSome = !(store.GetStore name).2.isSome) := by
  refine ⟨by decide, by decide, by decide, by decide, ?_, by decide, ?_⟩
  · intro h1 h2 h3
    simp [store.GetStore, h1, h2, h3]
  · unfold store.GetStore
    split_ifs <;> rfl

/-! ## Sync: the two precondition checks -/

/-- C9 (missing feed URL): when the feed URL renders as the empty string, `Sync` returns
the error "subscription has no FeedURL", makes no call (no fetch) and leaves the
subscription as it was; this holds whatever the unreachable flag is, the check being the
first. -/
theorem Sync_missing_feed_url (E : subscription.Env) (s : subscription.Subscription)
    (hurl : s.FeedURL.String = []) :
    (subscription.Sync E s).err = some (.fmtErrorf "subscription has no FeedURL" []) ∧
    (subscription.Sync E s).calls = [] ∧
    (subscription.Sync E s).sub = s ∧
    (subscription.Sync E s).af = none := by
  simp [subscription.Sync, hurl]

/-- C9 at a subscription whose feed URL is `URL{}` and which is flagged unreachable. -/
theorem Sync_missing_feed_url_witness :
    ({ sample.sub with FeedURL := url.URL.zero, unreachable := true } :
        subscription.Subscription).unreachable = true ∧
    (subscription.Sync (sample.env 1 (.error (.errorsNew "no route to host")))
        { sample.sub with FeedURL := url.URL.zero, unreachable := true }).err
      = some (.fmtErrorf "subscription has no FeedURL" []) ∧
    (subscription.Sync (sample.env 1 (.error (.errorsNew "no route to host")))
        { sample.sub with FeedURL := url.URL.zero, unreachable := true }).calls = [] :=
  ⟨rfl,
   (Sync_missing_feed_url _ { sample.sub with FeedURL := url.URL.zero, unreachable := true }
      (by decide)).1,
   (Sync_missing_feed_url _ { sample.sub with FeedURL := url.URL.zero, unreachable := true }
      (by decide)).2.1⟩

/-- C4 (reachability short-circuit): when the feed URL is not empty and the subscription
is flagged unreachable, `Sync` returns the error "<url> is unreachable", makes no call (no
fetch), and leaves the subscription, every field of it, as it was. -/
theorem Sync_unreachable_short_circuit (E : subscription.Env) (s : subscription.Subscription)
    (hurl : s.FeedURL.String ≠ []) (hoff : s.unreachable = true) :
    (subscription.Sync E s).err
      = some (.fmtErrorf "%s is unreachable" [.str s.FeedURL.String]) ∧
    (subscription.Sync E s).calls = [] ∧
    (subscription.Sync E s).sub = s ∧
    (subscription.Sync E s).af = none := by
  simp [subscription.Sync, hurl, hoff]

/-- C4 at the sample subscription, flagged unreachable, in a world whose fetch would
succeed. -/
theorem Sync_unreachable_short_circuit_witness :
    (subscription.Sync (sample.env 1 (.ok ⟨200, feed.atomDoc, none⟩))
        { sample.sub with unreachable := true }).calls = [] ∧
    (subscription.Sync (sample.env 1 (.ok ⟨200, feed.atomDoc, none⟩))
        { sample.sub with unreachable := true }).sub = { sample.sub with unreachable := true } :=
  ⟨(Sync_unreachable_short_circuit _ { sample.sub with unreachable := true }
      (by decide) rfl).2.1,
   (Sync_unreachable_short_circuit _ { sample.sub with unreachable := true }
      (by decide) rfl).2.2.1⟩

/-! ## Sync: after the fetch -/

/-- `Sync` when the fetch returns status 200 with a body read in full whose digest is the
stored checksum: only `lastSyncedAt` changes, and nothing is detected or parsed. -/
theorem Sync_of_unchanged (E : subscription.Env) (s : subscription.Subscription) (p : List Byte)
    (hurl : s.FeedURL.String ≠ []) (hoff : s.unreachable = false)
    (hget : E.httpGet s.FeedURL.String = .ok ⟨200, p, none⟩)
    (hsame : s.checksum = sha256.Sum224 p) :
    subscription.Sync E s =
      ⟨{ s with lastSyncedAt := E.now }, none, [.httpGet s.FeedURL.String, .readAll], none⟩ := by
  simp [subscription.Sync, hurl, hoff, hget, hsame]

/-- `Sync` when the fetch returns status 200 with a body read in full: whatever it
returns, the stored checksum is the digest of the body afterwards, and the flag, the
feed URL, the identifier and `createdAt` are as before. -/
theorem Sync_of_fetched (E : subscription.Env) (s : subscription.Subscription) (p : List Byte)
    (hurl : s.FeedURL.String ≠ []) (hoff : s.unreachable = false)
    (hget : E.httpGet s.FeedURL.String = .ok ⟨200, p, none⟩) :
    (subscription.Sync E s).sub =
      { s with lastSyncedAt := E.now, checksum := sha256.Sum224 p } := by
  by_cases hsame : s.checksum = sha256.Sum224 p
  · rw [Sync_of_unchanged E s p hurl hoff hget hsame]
    simp [← hsame]
  · cases hatom : E.IsAtomFeed p with
    | false => simp [subscription.Sync, hurl, hoff, hget, hsame, hatom]
    | true =>
      cases hparse : E.ParseAtomFeed p with
      | error err => simp [subscription.Sync, hurl, hoff, hget, hsame, hatom, hparse]
      | ok parsed => simp [subscription.Sync, hurl, hoff, hget, hsame, hatom, hparse]

/-- C6 (dedup idempotence): if a first `Sync` passed the precondition checks and fetched
the payload `p` with status 200, the body read in full (whatever it returned after
fingerprinting `p`), then a second `Sync` that fetches `p` with status 200 again returns
nil, calls only the fetch and the read of the body (neither `IsAtomFeed` nor
`ParseAtomFeed`), produces no parsed feed, and changes nothing but `lastSyncedAt`. -/
theorem Sync_dedup_idempotent (E1 E2 : subscription.Env) (s : subscription.Subscription)
    (p : List Byte)
    (hurl : s.FeedURL.String ≠ []) (hoff : s.unreachable = false)
    (hget1 : E1.httpGet s.FeedURL.String = .ok ⟨200, p, none⟩)
    (hget2 : E2.httpGet s.FeedURL.String = .ok ⟨200, p, none⟩) :
    (subscription.Sync E2 (subscription.Sync E1 s).sub).err = none ∧
    (subscription.Sync E2 (subscription.Sync E1 s).sub).calls
      = [.httpGet s.FeedURL.String, .readAll] ∧
    (subscription.Sync E2 (subscription.Sync E1 s).sub).af = none ∧
    (subscription.Sync E2 (subscription.Sync E1 s).sub).sub
      = { (subscription.Sync E1 s).sub with lastSyncedAt := E2.now } := by
  have h1 := Sync_of_fetched E1 s p hurl hoff hget1
  have h2 := Sync_of_unchanged E2 (subscription.Sync E1 s).sub p
    (by rw [h1]; exact hurl) (by rw [h1]; exact hoff) (by rw [h1]; exact hget2) (by rw [h1])
  rw [h2]
  refine ⟨rfl, ?_, rfl, rfl⟩
  rw [h1]

/-- C6 at the sample subscription and the Atom document of the test, fetched twice. -/
theorem Sync_dedup_idempotent_witness :
    (subscription.Sync (sample.env 2 (.ok ⟨200, feed.atomDoc, none⟩))
      (subscription.Sync (sample.env 1 (.ok ⟨200, feed.atomDoc, none⟩)) sample.sub).sub).err
        = none ∧
    (subscription.Sync (sample.env 2 (.ok ⟨200, feed.atomDoc, none⟩))
      (subscription.Sync (sample.env 1 (.ok ⟨200, feed.atomDoc, none⟩)) sample.sub).sub).calls
        = [.httpGet sample.sub.FeedURL.String, .readAll] :=
  ⟨(Sync_dedup_idempotent (sample.env 1 (.ok ⟨200, feed.atomDoc, none⟩))
      (sample.env 2 (.ok ⟨200, feed.atomDoc, none⟩)) sample.sub feed.atomDoc
      (by decide) rfl rfl rfl).1,
   (Sync_dedup_idempotent (sample.env 1 (.ok ⟨200, feed.atomDoc, none⟩))
      (sample.env 2 (.ok ⟨200, feed.atomDoc, none⟩)) sample.sub feed.atomDoc
      (by decide) rfl rfl rfl).2.1⟩

/-- C5 as stated fails: a response with status 500 whose body cannot be read in full
makes `Sync` return the read error with the unreachable flag still false, and the next
`Sync` performs a fetch. -/
theorem Sync_non200_unread_body_no_latch :
    (subscription.Sync (sample.env 1 (.ok sample.brokenBody500)) sample.sub).err
      = some (.errorsNew "unexpected EOF") ∧
    (subscription.Sync (sample.env 1 (.ok sample.brokenBody500)) sample.sub).sub.unreachable
      = false ∧
    (subscription.Sync (sample.env 2 (.error (.errorsNew "no route to host")))
      (subscription.Sync (sample.env 1 (.ok sample.brokenBody500)) sample.sub).sub).calls
      = [.httpGet sample.feedURL] := by
  decide

/-- C5, amended (reachability latch): when the subscription passes the precondition
checks and the fetch returns a response whose body is read in full and whose status code
is not 200, `Sync` returns the error "sync failure (<code>): <url>" and sets the
unreachable flag, so that the next `Sync`, in any world, returns the error "<url> is
unreachable" without a call. -/
theorem Sync_non200_latch (E E2 : subscription.Env) (s : subscription.Subscription)
    (resp : subscription.Response)
    (hurl : s.FeedURL.String ≠ []) (hoff : s.unreachable = false)
    (hget : E.httpGet s.FeedURL.String = .ok resp)
    (hread : resp.readErr = none) (hcode : resp.StatusCode ≠ 200) :
    (subscription.Sync E s).err
      = some (.fmtErrorf "sync failure (%d): %s" [.int resp.StatusCode, .str s.FeedURL.String]) ∧
    (subscription.Sync E s).sub.unreachable = true ∧
    (subscription.Sync E2 (subscription.Sync E s).sub).err
      = some (.fmtErrorf "%s is unreachable" [.str s.FeedURL.String]) ∧
    (subscription.Sync E2 (subscription.Sync E s).sub).calls = [] := by
  have h : subscription.Sync E s =
      ⟨{ s with lastSyncedAt := E.now, unreachable := true },
        some (.fmtErrorf "sync failure (%d): %s" [.int resp.StatusCode, .str s.FeedURL.String]),
        [.httpGet s.FeedURL.String, .readAll], none⟩ := by
    simp [subscription.Sync, hurl, hoff, hget, hread, hcode]
  rw [h]
  refine ⟨rfl, rfl, ?_, ?_⟩ <;> simp [subscription.Sync, hurl]

/-- C5, amended, at the sample subscription and a response with status 404. -/
theorem Sync_non200_latch_witness :
    (subscription.Sync (sample.env 1 (.ok ⟨404, [], none⟩)) sample.sub).sub.unreachable = true ∧
    (subscription.Sync (sample.env 2 (.ok ⟨200, feed.atomDoc, none⟩))
      (subscription.Sync (sample.env 1 (.ok ⟨404, [], none⟩)) sample.sub).sub).calls = [] :=
  ⟨(Sync_non200_latch (sample.env 1 (.ok ⟨404, [], none⟩))
      (sample.env 2 (.ok ⟨200, feed.atomDoc, none⟩)) sample.sub ⟨404, [], none⟩
      (by decide) rfl rfl rfl (by decide)).2.1,
   (Sync_non200_latch (sample.env 1 (.ok ⟨404, [], none⟩))
      (sample.env 2 (.ok ⟨200, feed.atomDoc, none⟩)) sample.sub ⟨404, [], none⟩
      (by decide) rfl rfl rfl (by decide)).2.2.2⟩

/-! ## Format dispatch -/

set_option maxRecDepth 100000 in
theorem Sum224_rssDoc_ne_zero : Bytes28.zero ≠ sha256.Sum224 feed.rssDoc := by decide

set_option maxRecDepth 100000 in
theorem Sum224_htmlDoc_ne_zero : Bytes28.zero ≠ sha256.Sum224 sample.htmlDoc := by decide

/-- `Sync` when the fetch returns status 200 with a body read in full whose digest is
not the stored checksum and which `IsAtomFeed` rejects: the unknown-format error. -/
theorem Sync_of_not_atom (E : subscription.Env) (s : subscription.Subscription) (p : List Byte)
    (hurl : s.FeedURL.String ≠ []) (hoff : s.unreachable = false)
    (hget : E.httpGet s.FeedURL.String = .ok ⟨200, p, none⟩)
    (hnew : s.checksum ≠ sha256.Sum224 p) (hatom : E.IsAtomFeed p = false) :
    subscription.Sync E s =
      ⟨{ s with lastSyncedAt := E.now, checksum := sha256.Sum224 p },
        some (.fmtErrorf "unknown syndication format" []),
        [.httpGet s.FeedURL.String, .readAll, .isAtomFeed p], none⟩ := by
  simp [subscription.Sync, hurl, hoff, hget, hnew, hatom]

/-- C7 as stated fails: a `Sync` of the sample subscription (stored checksum zero) that
fetches the RSS 2.0 document of the test, which is classified as RSS, returns the
unknown-format error. -/
theorem Sync_rss_unknown_format :
    feed.detect feed.rssDoc = .RSS ∧
    sample.sub.checksum ≠ sha256.Sum224 feed.rssDoc ∧
    (subscription.Sync (sample.env 1 (.ok ⟨200, feed.rssDoc, none⟩)) sample.sub).err
      = some (.fmtErrorf "unknown syndication format" []) := by
  refine ⟨by decide, Sum224_rssDoc_ne_zero, ?_⟩
  rw [Sync_of_not_atom _ sample.sub feed.rssDoc (by decide) rfl rfl Sum224_rssDoc_ne_zero
    (by decide)]

/-- C7, amended (format dispatch): the RSS 2.0 document of the test is classified as RSS
and is no Atom feed; the Atom document of the test is classified as Atom and is an Atom
feed; a payload is RSS or Atom exactly by its root element, and any other root element
(or none) gives `UnknownFormat`, which is no Atom feed either. `Sync` asks `IsAtomFeed`
only: when it fetches, with status 200 and the body read in full, a changed payload that
is no Atom feed (an RSS 2.0 payload included), it returns the unknown-format error right
after the call of `IsAtomFeed`, without calling the parser. -/
theorem format_dispatch (E : subscription.Env) (s : subscription.Subscription)
    (p : List Byte)
    (hurl : s.FeedURL.String ≠ []) (hoff : s.unreachable = false)
    (hget : E.httpGet s.FeedURL.String = .ok ⟨200, p, none⟩)
    (hnew : s.checksum ≠ sha256.Sum224 p) (hatom : E.IsAtomFeed p = false) :
    feed.detect feed.rssDoc = .RSS ∧ feed.IsAtomFeed feed.rssDoc = false ∧
    feed.detect feed.atomDoc = .Atom ∧ feed.IsAtomFeed feed.atomDoc = true ∧
    (∀ q : List Byte,
      (feed.detect q = .RSS ↔ feed.rootElementFrom .text q = some (lit "rss version=\"2.0\"")) ∧
      (feed.detect q = .Atom ↔
        feed.rootElementFrom .text q = some (lit "feed xmlns=\"http://www.w3.org/2005/Atom\"")) ∧
      (feed.detect q = .UnknownFormat ↔
        (feed.rootElementFrom .text q ≠ some (lit "rss version=\"2.0\"") ∧
         feed.rootElementFrom .text q
           ≠ some (lit "feed xmlns=\"http://www.w3.org/2005/Atom\""))) ∧
      (feed.IsAtomFeed q = true ↔ feed.detect q = .Atom)) ∧
    (subscription.Sync E s).err = some (.fmtErrorf "unknown syndication format" []) ∧
    (subscription.Sync E s).calls = [.httpGet s.FeedURL.String, .readAll, .isAtomFeed p] ∧
    (subscription.Sync E s).af = none := by
  refine ⟨by decide, by decide, by decide, by decide, ?_, ?_⟩
  · intro q
    have hne : lit "rss version=\"2.0\"" ≠ lit "feed xmlns=\"http://www.w3.org/2005/Atom\"" := by
      decide
    refine ⟨?_, ?_, ?_, by simp [feed.IsAtomFeed]⟩
    · unfold feed.detect
      cases hr : feed.rootElementFrom .text q with
      | none => simp
      | some root =>
        simp only [Option.some.injEq]
        split_ifs with h1 h2
        · simp [h1]
        · simp [h1]
        · simp [h1]
    · unfold feed.detect
      cases hr : feed.rootElementFrom .text q with
      | none => simp
      | some root =>
        simp only [Option.some.injEq]
        split_ifs with h1 h2
        · rw [h1]; simp [hne]
        · simp [h2]
        · simp [h2]
    · unfold feed.detect
      cases hr : feed.rootElementFrom .text q with
      | none => simp
      | some root =>
        simp only [Option.some.injEq]
        split_ifs with h1 h2
        · simp [h1]
        · simp [h2]
        · simp [h1, h2]
  · rw [Sync_of_not_atom E s p hurl hoff hget hnew hatom]
    exact ⟨rfl, rfl, rfl⟩

/-- C7, amended, at the sample subscription and an HTML payload. -/
theorem format_dispatch_witness :
    (subscription.Sync (sample.env 1 (.ok ⟨200, sample.htmlDoc, none⟩)) sample.sub).err
      = some (.fmtErrorf "unknown syndication format" []) :=
  (format_dispatch (sample.env 1 (.ok ⟨200, sample.htmlDoc, none⟩)) sample.sub sample.htmlDoc
    (by decide) rfl rfl Sum224_htmlDoc_ne_zero (by decide)).2.2.2.2.2.1

/-! ## Identity stamping -/

set_option maxRecDepth 100000 in
theorem Sum224_feedURL_ne_atomDoc : sample.sub.ID ≠ sha256.Sum224 feed.atomDoc := by decide

set_option maxRecDepth 100000 in
theorem Sum224_atomDoc_ne_zero : Bytes28.zero ≠ sha256.Sum224 feed.atomDoc := by decide

/-- `Sync` when the fetch returns status 200 with a body read in full whose digest is
not the stored checksum, which `IsAtomFeed` accepts and `ParseAtomFeed` parses. -/
theorem Sync_of_parsed (E : subscription.Env) (s : subscription.Subscription) (p : List Byte)
    (parsed : feed.AtomFeed)
    (hurl : s.FeedURL.String ≠ []) (hoff : s.unreachable = false)
    (hget : E.httpGet s.FeedURL.String = .ok ⟨200, p, none⟩)
    (hnew : s.checksum ≠ sha256.Sum224 p) (hatom : E.IsAtomFeed p = true)
    (hparse : E.ParseAtomFeed p = .ok parsed) :
    subscription.Sync E s =
      ⟨{ s with lastSyncedAt := E.now, checksum := sha256.Sum224 p }, none,
        [.httpGet s.FeedURL.String, .readAll, .isAtomFeed p, .parseAtomFeed p],
        some { parsed with SubscriptionID := s.ID }⟩ := by
  simp [subscription.Sync, hurl, hoff, hget, hnew, hatom, hparse]

/-- A `Sync` that produces a parsed feed went all the way: the fetch returned status 200
with a body read in full, `IsAtomFeed` accepted the body, `ParseAtomFeed` parsed it, and
the feed produced is the parser's with `SubscriptionID` set to the subscription's `ID`. -/
theorem Sync_af_eq_some (E : subscription.Env) (s : subscription.Subscription)
    (af : feed.AtomFeed) (h : (subscription.Sync E s).af = some af) :
    ∃ p parsed, E.httpGet s.FeedURL.String = .ok ⟨200, p, none⟩ ∧
      E.IsAtomFeed p = true ∧ E.ParseAtomFeed p = .ok parsed ∧
      af = { parsed with SubscriptionID := s.ID } := by
  by_cases h1 : s.FeedURL.String = []
  · simp [subscription.Sync, h1] at h
  by_cases h2 : s.unreachable = true
  · simp [subscription.Sync, h1, h2] at h
  cases hget : E.httpGet s.FeedURL.String with
  | error err => simp [subscription.Sync, h1, h2, hget] at h
  | ok resp =>
    obtain ⟨code, body, readErr⟩ := resp
    cases readErr with
    | some err => simp [subscription.Sync, h1, h2, hget] at h
    | none =>
      by_cases h3 : code = 200
      · subst h3
        by_cases h4 : s.checksum = sha256.Sum224 body
        · simp [subscription.Sync, h1, h2, hget, h4] at h
        · cases h5 : E.IsAtomFeed body with
          | false => simp [subscription.Sync, h1, h2, hget, h4, h5] at h
          | true =>
            cases hparse : E.ParseAtomFeed body with
            | error err => simp [subscription.Sync, h1, h2, hget, h4, h5, hparse] at h
            | ok parsed =>
              simp [subscription.Sync, h1, h2, hget, h4, h5, hparse] at h
              exact ⟨body, parsed, rfl, h5, hparse, h.symm⟩
      · simp [subscription.Sync, h1, h2, hget, h3] at h

theorem New_fst_eq_some (parseAuthority : url.ParseAuthority) (feedURL : GoString)
    (s : subscription.Subscription)
    (h : (subscription.New parseAuthority feedURL).1 = some s) :
    s.ID = sha256.Sum224 feedURL := by
  unfold subscription.New at h
  cases hp : url.Parse parseAuthority feedURL with
  | error err => rw [hp] at h; simp at h
  | ok u =>
    rw [hp] at h
    simp only [Option.some.injEq] at h
    rw [← h]

/-- C8 (identity stamping): the parsed feed a `Sync` produces (it then went through a
successful parse) is the parser's result with `SubscriptionID` set to the subscription's
`ID`; for a subscription that `New` returned, that is the SHA-224 digest of the feed URL
string; it does not depend on the payload: every `Sync` of the subscription that produces
a feed, in whatever world and so for whatever payload, stamps the same value; and what is
stamped is the `ID`, not the checksum of the payload: the two agree only on a payload
whose checksum is the subscription's `ID` itself. -/
theorem Sync_stamps_subscription_id (E : subscription.Env) (s : subscription.Subscription)
    (af : feed.AtomFeed) (h : (subscription.Sync E s).af = some af) :
    af.SubscriptionID = s.ID ∧
    (∃ p parsed, E.httpGet s.FeedURL.String = .ok ⟨200, p, none⟩ ∧
      E.IsAtomFeed p = true ∧ E.ParseAtomFeed p = .ok parsed ∧
      af = { parsed with SubscriptionID := s.ID }) ∧
    (∀ (parseAuthority : url.ParseAuthority) (feedURL : GoString),
      (subscription.New parseAuthority feedURL).1 = some s →
        af.SubscriptionID = sha256.Sum224 feedURL) ∧
    (∀ (E2 : subscription.Env) (af2 : feed.AtomFeed),
      (subscription.Sync E2 s).af = some af2 → af2.SubscriptionID = af.SubscriptionID) ∧
    (∀ p : List Byte, af.SubscriptionID = sha256.Sum224 p ↔ s.ID = sha256.Sum224 p) := by
  have hid : ∀ (E' : subscription.Env) (af' : feed.AtomFeed),
      (subscription.Sync E' s).af = some af' → af'.SubscriptionID = s.ID := by
    intro E' af' h'
    obtain ⟨p, parsed, _, _, _, haf⟩ := Sync_af_eq_some E' s af' h'
    rw [haf]
  refine ⟨hid E af h, Sync_af_eq_some E s af h, ?_, ?_, ?_⟩
  · intro parseAuthority feedURL hnew
    rw [hid E af h]
    exact New_fst_eq_some parseAuthority feedURL s hnew
  · intro E2 af2 h2
    rw [hid E2 af2 h2, hid E af h]
  · intro p
    rw [hid E af h]

/-- C8 at the sample subscription and the Atom document of the test: the feed produced
carries the digest of the feed URL, which is not the checksum of the payload. -/
theorem Sync_stamps_subscription_id_witness :
    (subscription.Sync (sample.env 1 (.ok ⟨200, feed.atomDoc, none⟩)) sample.sub).af
      = some ⟨sample.sub.ID, []⟩ ∧
    (⟨sample.sub.ID, []⟩ : feed.AtomFeed).SubscriptionID = sha256.Sum224 sample.feedURL ∧
    (⟨sample.sub.ID, []⟩ : feed.AtomFeed).SubscriptionID ≠ sha256.Sum224 feed.atomDoc :=
  have hrun : (subscription.Sync (sample.env 1 (.ok ⟨200, feed.atomDoc, none⟩)) sample.sub).af
      = some ⟨sample.sub.ID, []⟩ := by
    rw [Sync_of_parsed _ sample.sub feed.atomDoc ⟨Bytes28.zero, []⟩ (by decide) rfl rfl
      Sum224_atomDoc_ne_zero (by decide) rfl]
  ⟨hrun,
   (Sync_stamps_subscription_id _ sample.sub ⟨sample.sub.ID, []⟩ hrun).1,
   fun heq => Sum224_feedURL_ne_atomDoc
     (((Sync_stamps_subscription_id _ sample.sub ⟨sample.sub.ID, []⟩ hrun).2.2.2.2
        feed.atomDoc).1 heq)⟩

/-! ## New -/

theorem Parse_empty (parseAuthority : url.ParseAuthority) :
    url.Parse parseAuthority (lit "") = .ok url.URL.zero := by
  rfl

theorem Parse_colon_first (parseAuthority : url.ParseAuthority) :
    url.Parse parseAuthority (lit ":feed") =
      .error (.urlError "parse" (lit ":feed") (.errorsNew "missing protocol scheme")) := by
  rfl

/-- C10 as stated fails: `New("")` returns a subscription, with the digest of the empty
string as `ID` and `URL{}` as feed URL, and no error. -/
theorem New_empty_succeeds :
    subscription.New sample.parseAuthority (lit "") =
      (some { ID := sha256.Sum224 (lit ""), FeedURL := url.URL.zero, unreachable := false,
              checksum := Bytes28.zero, createdAt := subscription.Time.zero,
              lastSyncedAt := subscription.Time.zero }, none) := by
  simp only [subscription.New, Parse_empty]

/-- C10, amended: `New(feedURL)` returns an error and no subscription exactly when
`url.Parse(feedURL)` returns an error, and the error is that one; when the URL parses,
`New` returns no error and a subscription with the digest of `feedURL` as `ID`, the
parsed URL as `FeedURL` and the other fields zero. The empty string parses (to `URL{}`),
whatever `parseAuthority` does, so `New("")` returns a subscription; `New(":feed")`, whose
argument does not parse, returns the error of `url.Parse`. -/
theorem New_fails_iff_parse_fails (parseAuthority : url.ParseAuthority) (feedURL : GoString) :
    ((subscription.New parseAuthority feedURL).2 ≠ none ↔
      ∃ err, url.Parse parseAuthority feedURL = .error err) ∧
    (∀ err, url.Parse parseAuthority feedURL = .error err →
      subscription.New parseAuthority feedURL = (none, some err)) ∧
    (∀ u, url.Parse parseAuthority feedURL = .ok u →
      subscription.New parseAuthority feedURL =
        (some { ID := sha256.Sum224 feedURL, FeedURL := u, unreachable := false,
                checksum := Bytes28.zero, createdAt := subscription.Time.zero,
                lastSyncedAt := subscription.Time.zero }, none)) ∧
    subscription.New parseAuthority (lit "") =
      (some { ID := sha256.Sum224 (lit ""), FeedURL := url.URL.zero, unreachable := false,
              checksum := Bytes28.zero, createdAt := subscription.Time.zero,
              lastSyncedAt := subscription.Time.zero }, none) ∧
    subscription.New parseAuthority (lit ":feed") =
      (none, some (.urlError "parse" (lit ":feed") (.errorsNew "missing protocol scheme"))) := by
  refine ⟨?_, ?_, ?_, ?_, ?_⟩
  · unfold subscription.New
    cases hp : url.Parse parseAuthority feedURL with
    | error err => simp
    | ok u => simp
  · intro err hp
    simp only [subscription.New, hp]
  · intro u hp
    simp only [subscription.New, hp]
  · simp only [subscription.New, Parse_empty]
  · simp only [subscription.New, Parse_colon_first]

/-! ## Sync: what the fetch step writes -/

/-- `Sync` when the fetch returns a transport error. -/
theorem Sync_of_transport_error (E : subscription.Env) (s : subscription.Subscription)
    (terr : GoError)
    (hurl : s.FeedURL.String ≠ []) (hoff : s.unreachable = false)
    (hget : E.httpGet s.FeedURL.String = .error terr) :
    subscription.Sync E s =
      ⟨{ s with lastSyncedAt := E.now, unreachable := true }, some terr,
        [.httpGet s.FeedURL.String], none⟩ := by
  simp [subscription.Sync, hurl, hoff, hget]

/-- `Sync` when the fetch returns a response whose body cannot be read in full. -/
theorem Sync_of_read_error (E : subscription.Env) (s : subscription.Subscription)
    (code : Int) (body : List Byte) (rerr : GoError)
    (hurl : s.FeedURL.String ≠ []) (hoff : s.unreachable = false)
    (hget : E.httpGet s.FeedURL.String = .ok ⟨code, body, some rerr⟩) :
    subscription.Sync E s =
      ⟨{ s with lastSyncedAt := E.now }, some rerr,
        [.httpGet s.FeedURL.String, .readAll], none⟩ := by
  simp [subscription.Sync, hurl, hoff, hget]

/-- `Sync` when the fetch returns a response read in full whose status is not 200. -/
theorem Sync_of_bad_status (E : subscription.Env) (s : subscription.Subscription)
    (code : Int) (body : List Byte)
    (hurl : s.FeedURL.String ≠ []) (hoff : s.unreachable = false)
    (hget : E.httpGet s.FeedURL.String = .ok ⟨code, body, none⟩) (hcode : code ≠ 200) :
    subscription.Sync E s =
      ⟨{ s with lastSyncedAt := E.now, unreachable := true },
        some (.fmtErrorf "sync failure (%d): %s" [.int code, .str s.FeedURL.String]),
        [.httpGet s.FeedURL.String, .readAll], none⟩ := by
  simp [subscription.Sync, hurl, hoff, hget, hcode]

/-- `Sync` when the fetch returns status 200 with a body read in full whose digest is
not the stored checksum, which `IsAtomFeed` accepts and `ParseAtomFeed` rejects. -/
theorem Sync_of_parse_error (E : subscription.Env) (s : subscription.Subscription)
    (p : List Byte) (perr : GoError)
    (hurl : s.FeedURL.String ≠ []) (hoff : s.unreachable = false)
    (hget : E.httpGet s.FeedURL.String = .ok ⟨200, p, none⟩)
    (hnew : s.checksum ≠ sha256.Sum224 p) (hatom : E.IsAtomFeed p = true)
    (hparse : E.ParseAtomFeed p = .error perr) :
    subscription.Sync E s =
      ⟨{ s with lastSyncedAt := E.now, checksum := sha256.Sum224 p }, some perr,
        [.httpGet s.FeedURL.String, .readAll, .isAtomFeed p, .parseAtomFeed p], none⟩ := by
  simp [subscription.Sync, hurl, hoff, hget, hnew, hatom, hparse]

/-- The outcomes of a `Sync` that passes the two precondition checks: in each of them
the subscription afterwards is the one before with `lastSyncedAt` set to the time taken
after the fetch, and with `unreachable` or `checksum` possibly written. -/
theorem Sync_sub_of_fetch (E : subscription.Env) (s : subscription.Subscription)
    (hurl : s.FeedURL.String ≠ []) (hoff : s.unreachable = false) :
    ∃ (flag : Bool) (sum : Bytes28),
      (subscription.Sync E s).sub =
        { s with lastSyncedAt := E.now, unreachable := flag, checksum := sum } ∧
      (subscription.Sync E s).calls.head? = some (.httpGet s.FeedURL.String) := by
  cases hget : E.httpGet s.FeedURL.String with
  | error terr =>
    rw [Sync_of_transport_error E s terr hurl hoff hget]
    exact ⟨true, s.checksum, rfl, rfl⟩
  | ok resp =>
    obtain ⟨code, body, readErr⟩ := resp
    cases readErr with
    | some rerr =>
      rw [Sync_of_read_error E s code body rerr hurl hoff hget]
      exact ⟨false, s.checksum, by simp [hoff], rfl⟩
    | none =>
      by_cases hcode : code = 200
      · subst hcode
        refine ⟨false, sha256.Sum224 body, ?_, ?_⟩
        · rw [Sync_of_fetched E s body hurl hoff hget]
          simp [hoff]
        · simp [subscription.Sync, hurl, hoff, hget]
          split_ifs <;> try rfl
          split <;> rfl
      · rw [Sync_of_bad_status E s code body hurl hoff hget hcode]
        exact ⟨true, s.checksum, rfl, rfl⟩

/-- Every call of `Sync` leaves `ID`, `FeedURL` and `createdAt` as they were. -/
theorem Sync_frame (E : subscription.Env) (s : subscription.Subscription) :
    (subscription.Sync E s).sub.ID = s.ID ∧
    (subscription.Sync E s).sub.FeedURL = s.FeedURL ∧
    (subscription.Sync E s).sub.createdAt = s.createdAt := by
  by_cases hurl : s.FeedURL.String = []
  · simp [subscription.Sync, hurl]
  by_cases hoff : s.unreachable = true
  · simp [subscription.Sync, hurl, hoff]
  obtain ⟨flag, sum, hsub, _⟩ := Sync_sub_of_fetch E s hurl (by simpa using hoff)
  rw [hsub]
  exact ⟨rfl, rfl, rfl⟩

theorem syncAll_frame (worlds : List subscription.Env) (s : subscription.Subscription) :
    (syncAll worlds s).ID = s.ID ∧
    (syncAll worlds s).FeedURL = s.FeedURL ∧
    (syncAll worlds s).createdAt = s.createdAt := by
  induction worlds generalizing s with
  | nil => exact ⟨rfl, rfl, rfl⟩
  | cons E rest ih =>
    obtain ⟨h1, h2, h3⟩ := ih (subscription.Sync E s).sub
    obtain ⟨g1, g2, g3⟩ := Sync_frame E s
    simp only [syncAll, List.foldl_cons] at h1 h2 h3 ⊢
    exact ⟨h1.trans g1, h2.trans g2, h3.trans g3⟩

theorem New_sample :
    subscription.New sample.parseAuthority sample.feedURL = (some sample.sub, none) := by
  have hparse : url.Parse sample.parseAuthority sample.feedURL = .ok sample.sub.FeedURL := by
    decide
  simp only [subscription.New, hparse]
  rfl

/-- C11 (sync timestamp): when the subscription passes the two precondition checks
(feed URL not empty, not flagged unreachable), `Sync` performs the fetch as its first
call and `lastSyncedAt` afterwards is the time taken right after the fetch returned,
whatever the outcome: the statement holds for every world, so for a transport error, a
status other than 200, a body read failure, an unchanged payload, an unknown format, a
parse failure and a success. -/
theorem Sync_lastSyncedAt (E : subscription.Env) (s : subscription.Subscription)
    (hurl : s.FeedURL.String ≠ []) (hoff : s.unreachable = false) :
    (subscription.Sync E s).sub.lastSyncedAt = E.now ∧
    (subscription.Sync E s).calls.head? = some (.httpGet s.FeedURL.String) := by
  obtain ⟨flag, sum, hsub, hcalls⟩ := Sync_sub_of_fetch E s hurl hoff
  rw [hsub]
  exact ⟨rfl, hcalls⟩

/-- C11 at the sample subscription, at time 7, for a transport error and for a response
with status 404. -/
theorem Sync_lastSyncedAt_witness :
    (subscription.Sync (sample.env 7 (.error (.errorsNew "no route to host")))
      sample.sub).sub.lastSyncedAt = ⟨7⟩ ∧
    (subscription.Sync (sample.env 7 (.ok ⟨404, [], none⟩)) sample.sub).sub.lastSyncedAt = ⟨7⟩ :=
  ⟨(Sync_lastSyncedAt (sample.env 7 (.error (.errorsNew "no route to host"))) sample.sub
      (by decide) rfl).1,
   (Sync_lastSyncedAt (sample.env 7 (.ok ⟨404, [], none⟩)) sample.sub (by decide) rfl).1⟩

/-- C12 (transport failure): when the subscription passes the precondition checks and
the fetch returns a transport error, `Sync` returns that error, sets `unreachable`, leaves
the stored checksum as it was, and its only call is the fetch (no read, no detection, no
parse, no parsed feed). -/
theorem Sync_transport_failure (E : subscription.Env) (s : subscription.Subscription)
    (terr : GoError)
    (hurl : s.FeedURL.String ≠ []) (hoff : s.unreachable = false)
    (hget : E.httpGet s.FeedURL.String = .error terr) :
    (subscription.Sync E s).err = some terr ∧
    (subscription.Sync E s).sub.unreachable = true ∧
    (subscription.Sync E s).sub.checksum = s.checksum ∧
    (subscription.Sync E s).calls = [.httpGet s.FeedURL.String] ∧
    (subscription.Sync E s).af = none := by
  rw [Sync_of_transport_error E s terr hurl hoff hget]
  exact ⟨rfl, rfl, rfl, rfl, rfl⟩

/-- C12 at the sample subscription and the error "no route to host". -/
theorem Sync_transport_failure_witness :
    (subscription.Sync (sample.env 1 (.error (.errorsNew "no route to host"))) sample.sub).err
      = some (.errorsNew "no route to host") ∧
    (subscription.Sync (sample.env 1 (.error (.errorsNew "no route to host")))
      sample.sub).sub.unreachable = true :=
  ⟨(Sync_transport_failure (sample.env 1 (.error (.errorsNew "no route to host"))) sample.sub
      (.errorsNew "no route to host") (by decide) rfl rfl).1,
   (Sync_transport_failure (sample.env 1 (.error (.errorsNew "no route to host"))) sample.sub
      (.errorsNew "no route to host") (by decide) rfl rfl).2.1⟩

/-- C17 (body read failure): when the subscription passes the precondition checks and the
fetch returns status 200 with a body that cannot be read in full, `Sync` returns the read
error, the unreachable flag stays false, the stored checksum is as it was, and nothing is
detected or parsed. -/
theorem Sync_body_read_failure (E : subscription.Env) (s : subscription.Subscription)
    (body : List Byte) (rerr : GoError)
    (hurl : s.FeedURL.String ≠ []) (hoff : s.unreachable = false)
    (hget : E.httpGet s.FeedURL.String = .ok ⟨200, body, some rerr⟩) :
    (subscription.Sync E s).err = some rerr ∧
    (subscription.Sync E s).sub.unreachable = false ∧
    (subscription.Sync E s).sub.checksum = s.checksum ∧
    (subscription.Sync E s).calls = [.httpGet s.FeedURL.String, .readAll] ∧
    (subscription.Sync E s).af = none := by
  rw [Sync_of_read_error E s 200 body rerr hurl hoff hget]
  exact ⟨rfl, hoff, rfl, rfl, rfl⟩

/-- C17 at the sample subscription and a body that breaks off after `<?xml`. -/
theorem Sync_body_read_failure_witness :
    (subscription.Sync (sample.env 1 (.ok sample.brokenBody200)) sample.sub).err
      = some (.errorsNew "unexpected EOF") ∧
    (subscription.Sync (sample.env 1 (.ok sample.brokenBody200)) sample.sub).sub.unreachable
      = false ∧
    (subscription.Sync (sample.env 1 (.ok sample.brokenBody200)) sample.sub).sub.checksum
      = Bytes28.zero :=
  ⟨(Sync_body_read_failure (sample.env 1 (.ok sample.brokenBody200)) sample.sub (lit "<?xml")
      (.errorsNew "unexpected EOF") (by decide) rfl rfl).1,
   (Sync_body_read_failure (sample.env 1 (.ok sample.brokenBody200)) sample.sub (lit "<?xml")
      (.errorsNew "unexpected EOF") (by decide) rfl rfl).2.1,
   (Sync_body_read_failure (sample.env 1 (.ok sample.brokenBody200)) sample.sub (lit "<?xml")
      (.errorsNew "unexpected EOF") (by decide) rfl rfl).2.2.1⟩

/-- C13 (the checksum is recorded before parsing): when the subscription passes the
precondition checks and the fetch returns status 200 with a body read in full whose
SHA-224 digest is not the stored checksum, the stored checksum afterwards is that digest
on every path: when `IsAtomFeed` rejects the payload (`Sync` then returns the
unknown-format error), when the parser returns an error (`Sync` then returns that error),
and when the parse succeeds (`Sync` then returns nil). -/
theorem Sync_checksum_before_parse (E : subscription.Env) (s : subscription.Subscription)
    (p : List Byte)
    (hurl : s.FeedURL.String ≠ []) (hoff : s.unreachable = false)
    (hget : E.httpGet s.FeedURL.String = .ok ⟨200, p, none⟩)
    (hnew : s.checksum ≠ sha256.Sum224 p) :
    (subscription.Sync E s).sub.checksum = sha256.Sum224 p ∧
    (E.IsAtomFeed p = false →
      (subscription.Sync E s).err = some (.fmtErrorf "unknown syndication format" [])) ∧
    (∀ perr, E.IsAtomFeed p = true → E.ParseAtomFeed p = .error perr →
      (subscription.Sync E s).err = some perr) ∧
    (∀ parsed, E.IsAtomFeed p = true → E.ParseAtomFeed p = .ok parsed →
      (subscription.Sync E s).err = none) := by
  refine ⟨?_, ?_, ?_, ?_⟩
  · rw [Sync_of_fetched E s p hurl hoff hget]
  · intro hatom
    rw [Sync_of_not_atom E s p hurl hoff hget hnew hatom]
  · intro perr hatom hparse
    rw [Sync_of_parse_error E s p perr hurl hoff hget hnew hatom hparse]
  · intro parsed hatom hparse
    rw [Sync_of_parsed E s p parsed hurl hoff hget hnew hatom hparse]

/-- C13 at the sample subscription: an HTML payload (unknown format) and the Atom document
of the test with a parser that rejects it. -/
theorem Sync_checksum_before_parse_witness :
    ((subscription.Sync (sample.env 1 (.ok ⟨200, sample.htmlDoc, none⟩)) sample.sub).sub.checksum
        = sha256.Sum224 sample.htmlDoc ∧
     (subscription.Sync (sample.env 1 (.ok ⟨200, sample.htmlDoc, none⟩)) sample.sub).err
        = some (.fmtErrorf "unknown syndication format" [])) ∧
    ((subscription.Sync (sample.envParseFails 1 (.ok ⟨200, feed.atomDoc, none⟩))
        sample.sub).sub.checksum = sha256.Sum224 feed.atomDoc ∧
     (subscription.Sync (sample.envParseFails 1 (.ok ⟨200, feed.atomDoc, none⟩))
        sample.sub).err = some (.errorsNew "XML syntax error")) :=
  ⟨⟨(Sync_checksum_before_parse (sample.env 1 (.ok ⟨200, sample.htmlDoc, none⟩)) sample.sub
        sample.htmlDoc (by decide) rfl rfl Sum224_htmlDoc_ne_zero).1,
    (Sync_checksum_before_parse (sample.env 1 (.ok ⟨200, sample.htmlDoc, none⟩)) sample.sub
        sample.htmlDoc (by decide) rfl rfl Sum224_htmlDoc_ne_zero).2.1 (by decide)⟩,
   ⟨(Sync_checksum_before_parse (sample.envParseFails 1 (.ok ⟨200, feed.atomDoc, none⟩))
        sample.sub feed.atomDoc (by decide) rfl rfl Sum224_atomDoc_ne_zero).1,
    (Sync_checksum_before_parse (sample.envParseFails 1 (.ok ⟨200, feed.atomDoc, none⟩))
        sample.sub feed.atomDoc (by decide) rfl rfl Sum224_atomDoc_ne_zero).2.2.1
        (.errorsNew "XML syntax error") (by decide) rfl⟩⟩

/-- C14 (identity stability): a subscription that `New` returned for the string `u` has
the SHA-224 digest of the bytes of `u` as `ID`; every call of `Sync`, in every world and
on every subscription, leaves `ID`, `FeedURL` and `createdAt` as they were; so after any
sequence of `Sync` calls the `ID` is still the digest of `u`. -/
theorem identity_stability (parseAuthority : url.ParseAuthority) (u : GoString)
    (s : subscription.Subscription)
    (hnew : subscription.New parseAuthority u = (some s, none)) :
    s.ID = sha256.Sum224 u ∧
    (∀ (E : subscription.Env) (t : subscription.Subscription),
      (subscription.Sync E t).sub.ID = t.ID ∧
      (subscription.Sync E t).sub.FeedURL = t.FeedURL ∧
      (subscription.Sync E t).sub.createdAt = t.createdAt) ∧
    (∀ worlds : List subscription.Env,
      (syncAll worlds s).ID = sha256.Sum224 u ∧
      (syncAll worlds s).FeedURL = s.FeedURL ∧
      (syncAll worlds s).createdAt = s.createdAt) := by
  have hid : s.ID = sha256.Sum224 u :=
    New_fst_eq_some parseAuthority u s (by rw [hnew])
  refine ⟨hid, fun E t => Sync_frame E t, ?_⟩
  intro worlds
  obtain ⟨h1, h2, h3⟩ := syncAll_frame worlds s
  exact ⟨h1.trans hid, h2, h3⟩

/-- C14 at the sample feed URL: after a failed and then a short-circuited `Sync` the `ID`
is the digest of the feed URL. -/
theorem identity_stability_witness :
    sample.sub.ID = sha256.Sum224 sample.feedURL ∧
    (syncAll [sample.env 1 (.ok ⟨404, [], none⟩), sample.env 2 (.ok ⟨200, feed.atomDoc, none⟩)]
      sample.sub).ID = sha256.Sum224 sample.feedURL :=
  ⟨(identity_stability sample.parseAuthority sample.feedURL sample.sub New_sample).1,
   ((identity_stability sample.parseAuthority sample.feedURL sample.sub New_sample).2.2
      [sample.env 1 (.ok ⟨404, [], none⟩), sample.env 2 (.ok ⟨200, feed.atomDoc, none⟩)]).1⟩

/-! ## The identifier: shape, case, failed decoding, SetValue -/

set_option maxRecDepth 100000 in
theorem hextable_lower : ∀ v : Byte,
    isLowerHexDigit (hex.hextable.getD (v.val >>> 4) 0) ∧
    isLowerHexDigit (hex.hextable.getD (v.val &&& 0x0f) 0) := by
  decide

theorem EncodeToString_lower (l : List Byte) :
    ∀ c ∈ hex.EncodeToString l, isLowerHexDigit c := by
  induction l with
  | nil => intro c hc; simp [hex.EncodeToString] at hc
  | cons v rest ih =>
    intro c hc
    simp only [hex.EncodeToString, List.mem_cons] at hc
    rcases hc with h | h | h
    · rw [h]; exact (hextable_lower v).1
    · rw [h]; exact (hextable_lower v).2
    · exact ih c h

set_option maxRecDepth 100000 in
theorem fromHexChar_digit_all : ∀ c : Byte,
    (hex.fromHexChar c).all (fun a => decide (a.val < 16 ∧
      hex.hextable.getD a.val 0 = (if 65 ≤ c.val ∧ c.val ≤ 90 then c + 32 else c))) = true := by
  decide

theorem fromHexChar_digit (c a : Byte) (h : hex.fromHexChar c = some a) :
    a.val < 16 ∧
      hex.hextable.getD a.val 0 = (if 65 ≤ c.val ∧ c.val ≤ 90 then c + 32 else c) := by
  have := fromHexChar_digit_all c
  rw [h] at this
  simpa [Option.all] using this

set_option maxRecDepth 100000 in
theorem byte_nibbles : ∀ a b : Fin 16,
    (byte ((a.val <<< 4) ||| b.val)).val >>> 4 = a.val ∧
    (byte ((a.val <<< 4) ||| b.val)).val &&& 0x0f = b.val := by
  decide

/-- Encoding what `DecodeString` decoded without error gives the string back with its
letters in lower case, and the string has two characters per decoded byte. -/
theorem EncodeToString_DecodeString (s : GoString) (h : (hex.DecodeString s).2 = none) :
    hex.EncodeToString (hex.DecodeString s).1 = strings.ToLower s ∧
    s.length = 2 * (hex.DecodeString s).1.length := by
  induction s using hex.DecodeString.induct with
  | case1 p q rest hp => simp [hex.DecodeString, hp] at h
  | case2 p q rest a hp hq => simp [hex.DecodeString, hp, hq] at h
  | case3 p q rest a hp b hq ih =>
    simp only [hex.DecodeString, hp, hq] at h ⊢
    obtain ⟨ih1, ih2⟩ := ih h
    obtain ⟨ha1, ha2⟩ := fromHexChar_digit p a hp
    obtain ⟨hb1, hb2⟩ := fromHexChar_digit q b hq
    obtain ⟨n1, n2⟩ := byte_nibbles ⟨a.val, ha1⟩ ⟨b.val, hb1⟩
    simp only at n1 n2
    refine ⟨?_, ?_⟩
    · simp only [hex.EncodeToString, n1, n2, ha2, hb2, ih1, strings.ToLower, List.map_cons]
    · simp only [List.length_cons, ih2]; omega
  | case4 p hp => simp [hex.DecodeString, hp] at h
  | case5 p a hp => simp [hex.DecodeString, hp] at h
  | case6 => exact ⟨rfl, rfl⟩

/-- What a successful `SetValueFromHexString` stores: the string has 56 characters,
`DecodeString` decodes it without error, and the value is the decoded bytes. -/
theorem SetValueFromHexString_ok (id : index.SHA224DexID) (s : GoString)
    (h : (id.SetValueFromHexString s).2 = none) :
    s.length = 56 ∧ (hex.DecodeString s).2 = none ∧
    (id.SetValueFromHexString s).1.value.val = (hex.DecodeString s).1 := by
  unfold index.SHA224DexID.SetValueFromHexString index.SHA224DexIDHexLen at h ⊢
  by_cases hlen : s.length = 56
  · simp only [hlen, ne_eq, not_true_eq_false, if_false] at h ⊢
    rcases hd : hex.DecodeString s with ⟨raw, err⟩
    rw [hd] at h
    cases err with
    | some e => simp at h
    | none =>
      have hd2 := EncodeToString_DecodeString s (by rw [hd])
      rw [hd] at hd2
      have hraw : s.length = 2 * raw.length := hd2.2
      refine ⟨trivial, rfl, ?_⟩
      simp only [index.SHA224DexID.SetValue]
      apply goCopy_of_length_eq
      have := id.value.property
      omega
  · simp [hlen] at h

/-- A failed `SetValueFromHexString` returns the receiver as it was. -/
theorem SetValueFromHexString_err (id : index.SHA224DexID) (s : GoString)
    (h : (id.SetValueFromHexString s).2 ≠ none) :
    (id.SetValueFromHexString s).1 = id := by
  unfold index.SHA224DexID.SetValueFromHexString at h ⊢
  split_ifs at h ⊢ with hlen
  · rfl
  · rcases hd : hex.DecodeString s with ⟨raw, err⟩
    rw [hd] at h
    cases err with
    | some e => rfl
    | none => simp at h

theorem wellShaped_all (DexIDTypeSHA224 : Byte) (id : index.SHA224DexID) :
    wellShaped DexIDTypeSHA224 id := by
  refine ⟨id.value.property, ?_, EncodeToString_lower _, rfl⟩
  simp only [index.SHA224DexID.HexString, length_EncodeToString, id.value.property]

/-- C15 (identifier shape): every `SHA224DexID` has a `Value()` of exactly 28 bytes, a
`HexString()` of exactly 56 characters, each a lowercase hexadecimal digit, and the
constant as `Algo()`; in particular the zero value and the identifier after `SetValue`,
after `SetValueFromString` and after `SetValueFromHexString` (whether it failed or not). -/
theorem identifier_shape (DexIDTypeSHA224 : Byte) (id : index.SHA224DexID)
    (val : List Byte) (str : GoString) :
    wellShaped DexIDTypeSHA224 id ∧
    wellShaped DexIDTypeSHA224 ⟨Bytes28.zero⟩ ∧
    wellShaped DexIDTypeSHA224 (id.SetValue val) ∧
    wellShaped DexIDTypeSHA224 (id.SetValueFromString str) ∧
    wellShaped DexIDTypeSHA224 (id.SetValueFromHexString str).1 :=
  ⟨wellShaped_all _ _, wellShaped_all _ _, wellShaped_all _ _, wellShaped_all _ _,
   wellShaped_all _ _⟩

/-- C16 (determinism of content identity): after `SetValueFromString(p)` two receivers,
whatever they held, are equal: same `Value()`, same `Algo()`; the value is the SHA-224
digest of `p`. -/
theorem SetValueFromString_deterministic (DexIDTypeSHA224 : Byte) (a b : index.SHA224DexID)
    (p : GoString) :
    a.SetValueFromString p = b.SetValueFromString p ∧
    (a.SetValueFromString p).Value = (b.SetValueFromString p).Value ∧
    (a.SetValueFromString p).Algo DexIDTypeSHA224
      = (b.SetValueFromString p).Algo DexIDTypeSHA224 ∧
    (a.SetValueFromString p).Value = (sha256.Sum224 p).val :=
  ⟨rfl, rfl, rfl, rfl⟩

/-- C19 (a failed decode is atomic): when `SetValueFromHexString(s)` returns an error, the
identifier, and so its `Value()`, is what it was before the call. -/
theorem SetValueFromHexString_atomic (id : index.SHA224DexID) (s : GoString)
    (h : (id.SetValueFromHexString s).2 ≠ none) :
    (id.SetValueFromHexString s).1.Value = id.Value ∧
    (id.SetValueFromHexString s).1 = id := by
  rw [SetValueFromHexString_err id s h]
  exact ⟨rfl, rfl⟩

/-- C19 at the identifier with value `1, 2, 3, 0, ...`, for a string of two characters and
for a 56-character string that starts with `g`. -/
theorem SetValueFromHexString_atomic_witness :
    (((⟨Bytes28.zero⟩ : index.SHA224DexID).SetValue [1, 2, 3]).SetValueFromHexString
        (lit "zz")).1.Value = 1 :: 2 :: 3 :: List.replicate 25 0 ∧
    (((⟨Bytes28.zero⟩ : index.SHA224DexID).SetValue [1, 2, 3]).SetValueFromHexString
        (103 :: List.replicate 55 48)).1.Value = 1 :: 2 :: 3 :: List.replicate 25 0 :=
  ⟨(SetValueFromHexString_atomic ((⟨Bytes28.zero⟩ : index.SHA224DexID).SetValue [1, 2, 3])
      (lit "zz") (by decide)).1.trans (by decide),
   (SetValueFromHexString_atomic ((⟨Bytes28.zero⟩ : index.SHA224DexID).SetValue [1, 2, 3])
      (103 :: List.replicate 55 48) (by decide)).1.trans (by decide)⟩

/-- C20 (`SetValue` copies a prefix): `SetValue` returns no error; after `SetValue(val)`
the value still has 28 bytes, byte `i` of it is byte `i` of `val` for `i < len(val)` and
byte `i` of the old value otherwise; so a `val` of 28 bytes or more sets the value to the
first 28 bytes of `val`, and a shorter `val` is followed by the old bytes from position
`len(val)` on. -/
theorem SetValue_copies_prefix (id : index.SHA224DexID) (val : List Byte) :
    (id.SetValue val).Value.length = 28 ∧
    (∀ i, i < 28 →
      (id.SetValue val).Value[i]? = if i < val.length then val[i]? else id.Value[i]?) ∧
    (28 ≤ val.length → (id.SetValue val).Value = val.take 28) ∧
    (val.length < 28 → (id.SetValue val).Value = val ++ id.Value.drop val.length) := by
  have hlen := id.value.property
  have hval : (id.SetValue val).Value = val.take 28 ++ id.value.val.drop val.length := by
    simp only [index.SHA224DexID.Value, index.SHA224DexID.SetValue, goCopy, hlen]
  refine ⟨(id.SetValue val).value.property, ?_, ?_, ?_⟩
  · intro i hi
    rw [hval]
    by_cases hiv : i < val.length
    · rw [if_pos hiv, List.getElem?_append_left (by simp; omega), List.getElem?_take_of_lt hi]
    · rw [if_neg hiv]
      have hle : val.length ≤ 28 := by omega
      rw [List.take_of_length_le hle, List.getElem?_append_right (by omega),
        List.getElem?_drop]
      simp only [index.SHA224DexID.Value]
      congr 1
      omega
  · intro h
    rw [hval, List.drop_eq_nil_of_le (by omega), List.append_nil]
  · intro h
    rw [hval, List.take_of_length_le (by omega)]
    rfl

set_option maxRecDepth 100000 in
theorem lower_eq_self_iff : ∀ c : Byte, isHexDigit c →
    ((if 65 ≤ c.val ∧ c.val ≤ 90 then c + 32 else c) = c ↔ ¬ isUpperHexDigit c) := by
  decide

theorem ToLower_eq_self_iff (s : GoString) (hs : ∀ c ∈ s, isHexDigit c) :
    strings.ToLower s = s ↔ ∀ c ∈ s, ¬ isUpperHexDigit c := by
  induction s with
  | nil => simp [strings.ToLower]
  | cons c rest ih =>
    have hc := lower_eq_self_iff c (hs c (List.mem_cons_self c rest))
    have ih2 := ih (fun d hd => hs d (List.mem_cons_of_mem c hd))
    simp only [strings.ToLower, List.map_cons, List.cons.injEq, List.mem_cons,
      forall_eq_or_imp] at ih2 ⊢
    rw [hc, ih2]

/-- The characters of a string that `SetValueFromHexString` accepts are hexadecimal
digits. -/
theorem SetValueFromHexString_ok_digits (id : index.SHA224DexID) (s : GoString)
    (h : (id.SetValueFromHexString s).2 = none) : ∀ c ∈ s, isHexDigit c := by
  have hsnd := SetValueFromHexString_snd id s
  rw [h] at hsnd
  by_cases hlen : s.length = 56
  · simp only [hlen, ne_eq, not_true_eq_false, if_false] at hsnd
    cases hf : s.find? (fun c => decide (¬ isHexDigit c)) with
    | none => exact (find_nonhex_eq_none_iff s).1 hf
    | some b => rw [hf] at hsnd; simp at hsnd
  · simp [hlen] at hsnd

/-- C18 (decoding normalises case): when `SetValueFromHexString(s)` returns no error, the
stored value is the 28 bytes that `s` encodes (what `hex.DecodeString` decodes from it),
`HexString()` afterwards is `s` with its letters in lower case, so it is `s` itself exactly
when `s` has no uppercase digit `A-F`, and any accepted string with the same lowercase
form, decoded into any identifier, gives an equal identifier. -/
theorem SetValueFromHexString_normalises_case (id : index.SHA224DexID) (s : GoString)
    (hok : (id.SetValueFromHexString s).2 = none) :
    (id.SetValueFromHexString s).1.Value = (hex.DecodeString s).1 ∧
    (id.SetValueFromHexString s).1.Value.length = 28 ∧
    (id.SetValueFromHexString s).1.HexString = strings.ToLower s ∧
    ((id.SetValueFromHexString s).1.HexString = s ↔ ∀ c ∈ s, ¬ isUpperHexDigit c) ∧
    (∀ (id2 : index.SHA224DexID) (s2 : GoString),
      (id2.SetValueFromHexString s2).2 = none → strings.ToLower s2 = strings.ToLower s →
        (id2.SetValueFromHexString s2).1 = (id.SetValueFromHexString s).1) := by
  obtain ⟨hlen, hdec, hval⟩ := SetValueFromHexString_ok id s hok
  have henc : (id.SetValueFromHexString s).1.HexString = strings.ToLower s := by
    simp only [index.SHA224DexID.HexString, hval]
    exact (EncodeToString_DecodeString s hdec).1
  refine ⟨hval, (id.SetValueFromHexString s).1.value.property, henc, ?_, ?_⟩
  · rw [henc]
    exact ToLower_eq_self_iff s (SetValueFromHexString_ok_digits id s hok)
  · intro id2 s2 hok2 hlow
    obtain ⟨_, hdec2, hval2⟩ := SetValueFromHexString_ok id2 s2 hok2
    have h1 := (EncodeToString_DecodeString s hdec).1
    have h2 := (EncodeToString_DecodeString s2 hdec2).1
    have hraw : (hex.DecodeString s2).1 = (hex.DecodeString s).1 := by
      have e1 := DecodeString_EncodeToString (hex.DecodeString s).1
      have e2 := DecodeString_EncodeToString (hex.DecodeString s2).1
      rw [h1] at e1
      rw [h2, hlow, e1] at e2
      exact (Prod.mk.inj e2).1.symm
    cases hr2 : (id2.SetValueFromHexString s2).1 with
    | mk v2 =>
      cases hr1 : (id.SetValueFromHexString s).1 with
      | mk v1 =>
        rw [hr2] at hval2
        rw [hr1] at hval
        simp only [index.SHA224DexID.mk.injEq]
        apply Subtype.ext
        rw [hval2, hval, hraw]

/-- C18 at two strings that differ in letter case only: `AbCdEf` and `abcdef`, each
followed by fifty zeros. -/
theorem SetValueFromHexString_normalises_case_witness :
    ((⟨Bytes28.zero⟩ : index.SHA224DexID).SetValueFromHexString
        (lit "AbCdEf" ++ List.replicate 50 48)).1.HexString
      = lit "abcdef" ++ List.replicate 50 48 ∧
    ((⟨Bytes28.zero⟩ : index.SHA224DexID).SetValue [1, 2, 3]).SetValueFromHexString
        (lit "abcdef" ++ List.replicate 50 48)
      = (((⟨Bytes28.zero⟩ : index.SHA224DexID).SetValueFromHexString
          (lit "AbCdEf" ++ List.replicate 50 48)).1, none) :=
  ⟨(SetValueFromHexString_normalises_case ⟨Bytes28.zero⟩
      (lit "AbCdEf" ++ List.replicate 50 48) (by decide)).2.2.1.trans (by decide),
   Prod.ext
    ((SetValueFromHexString_normalises_case ⟨Bytes28.zero⟩
      (lit "AbCdEf" ++ List.replicate 50 48) (by decide)).2.2.2.2
      ((⟨Bytes28.zero⟩ : index.SHA224DexID).SetValue [1, 2, 3])
      (lit "abcdef" ++ List.replicate 50 48) (by decide) (by decide))
    (by decide)⟩

end Receptor
